import Mathlib

/-!
DNS-01 validation, address splitting and resolution errors (boulder `va/dns.go`).

A shallow embedding of `va/dns.go` together with the resolver test double of
`bdns/mocks.go`.  Go strings are byte sequences, so they are lists of bytes
here; every Go standard-library routine the validator calls (`crypto/sha256`,
`encoding/base64`, `crypto/subtle`, `fmt`/`strconv` quoting, `net.IP.To4`) is
written out as an executable function following the library's own code.
-/

set_option autoImplicit false

namespace Boulder

/-! ## Bytes and strings -/

/-- A byte (`uint8`). -/
abbrev Byte := Fin 256

/-- A Go `string` (equally a `[]byte`): a finite sequence of bytes, not
necessarily valid UTF-8. -/
abbrev GoString := List Byte

/-- The byte with the given value, reduced modulo 256 (`byte(n)`). -/
def byte (n : Nat) : Byte := ⟨n % 256, Nat.mod_lt _ (by decide)⟩

/-- `utf8.AppendRune` on a single rune: the UTF-8 encoding of the code point
`r`; surrogates and values above U+10FFFF are encoded as U+FFFD. -/
def encodeRune (r : Nat) : GoString :=
  if r ≤ 0x7F then [byte r]
  else if r ≤ 0x7FF then [byte (0xC0 ||| (r >>> 6)), byte (0x80 ||| (r &&& 0x3F))]
  else if r > 0x10FFFF ∨ (0xD800 ≤ r ∧ r ≤ 0xDFFF) then [byte 0xEF, byte 0xBF, byte 0xBD]
  else if r ≤ 0xFFFF then
    [byte (0xE0 ||| (r >>> 12)), byte (0x80 ||| ((r >>> 6) &&& 0x3F)),
     byte (0x80 ||| (r &&& 0x3F))]
  else
    [byte (0xF0 ||| (r >>> 18)), byte (0x80 ||| ((r >>> 12) &&& 0x3F)),
     byte (0x80 ||| ((r >>> 6) &&& 0x3F)), byte (0x80 ||| (r &&& 0x3F))]

/-- The bytes of a string literal of the source (its UTF-8 encoding). -/
def lit (s : String) : GoString := s.toList.flatMap (fun c => encodeRune c.toNat)

/-! ## `crypto/sha256` -/

namespace sha256

/-- Reduction of a natural number to a `uint32`. -/
def u32 (x : Nat) : Nat := x % 2 ^ 32

/-- `bits.RotateLeft32(x, -n)`: rotation of a 32-bit word to the right. -/
def rotr (x n : Nat) : Nat := u32 ((x >>> n) ||| (x <<< (32 - n)))

/-- `^x` on a `uint32`. -/
def not32 (x : Nat) : Nat := x ^^^ 0xffffffff

/-- The round constants `_K`. -/
def K : List Nat :=
  [0x428a2f98, 0x71374491, 0xb5c0fbcf, 0xe9b5dba5, 0x3956c25b, 0x59f111f1, 0x923f82a4, 0xab1c5ed5,
   0xd807aa98, 0x12835b01, 0x243185be, 0x550c7dc3, 0x72be5d74, 0x80deb1fe, 0x9bdc06a7, 0xc19bf174,
   0xe49b69c1, 0xefbe4786, 0x0fc19dc6, 0x240ca1cc, 0x2de92c6f, 0x4a7484aa, 0x5cb0a9dc, 0x76f988da,
   0x983e5152, 0xa831c66d, 0xb00327c8, 0xbf597fc7, 0xc6e00bf3, 0xd5a79147, 0x06ca6351, 0x14292967,
   0x27b70a85, 0x2e1b2138, 0x4d2c6dfc, 0x53380d13, 0x650a7354, 0x766a0abb, 0x81c2c92e, 0x92722c85,
   0xa2bfe8a1, 0xa81a664b, 0xc24b8b70, 0xc76c51a3, 0xd192e819, 0xd6990624, 0xf40e3585, 0x106aa070,
   0x19a4c116, 0x1e376c08, 0x2748774c, 0x34b0bcb5, 0x391c0cb3, 0x4ed8aa4a, 0x5b9cca4f, 0x682e6ff3,
   0x748f82ee, 0x78a5636f, 0x84c87814, 0x8cc70208, 0x90befffa, 0xa4506ceb, 0xbef9a3f7, 0xc67178f2]

/-- The chaining value `dig.h`: eight 32-bit words. -/
structure Digest where
  h0 : Nat
  h1 : Nat
  h2 : Nat
  h3 : Nat
  h4 : Nat
  h5 : Nat
  h6 : Nat
  h7 : Nat
deriving DecidableEq, Repr

/-- The initial chaining value (`init0` .. `init7`). -/
def init : Digest :=
  ⟨0x6a09e667, 0xbb67ae85, 0x3c6ef372, 0xa54ff53a, 0x510e527f, 0x9b05688c, 0x1f83d9ab, 0x5be0cd19⟩

/-- The first sixteen words of the message schedule: the block read as
big-endian 32-bit words. -/
def words : Nat → GoString → List Nat
  | 0, _ => []
  | n + 1, p =>
    ((p.getD 0 0).val <<< 24 ||| (p.getD 1 0).val <<< 16 ||| (p.getD 2 0).val <<< 8
      ||| (p.getD 3 0).val) :: words n (p.drop 4)

/-- Extension of the message schedule by `n` further words
(`for i := 16; i < 64; i++`). -/
def extend : Nat → List Nat → List Nat
  | 0, w => w
  | n + 1, w =>
    let i := w.length
    let v1 := w.getD (i - 2) 0
    let t1 := rotr v1 17 ^^^ rotr v1 19 ^^^ (v1 >>> 10)
    let v2 := w.getD (i - 15) 0
    let t2 := rotr v2 7 ^^^ rotr v2 18 ^^^ (v2 >>> 3)
    extend n (w ++ [u32 (t1 + w.getD (i - 7) 0 + t2 + w.getD (i - 16) 0)])

/-- One round of the compression loop, with round constant `k` and schedule
word `w`. -/
def round (s : Digest) (k w : Nat) : Digest :=
  let t1 := u32 (s.h7 + (rotr s.h4 6 ^^^ rotr s.h4 11 ^^^ rotr s.h4 25)
    + ((s.h4 &&& s.h5) ^^^ (not32 s.h4 &&& s.h6)) + k + w)
  let t2 := u32 ((rotr s.h0 2 ^^^ rotr s.h0 13 ^^^ rotr s.h0 22)
    + ((s.h0 &&& s.h1) ^^^ (s.h0 &&& s.h2) ^^^ (s.h1 &&& s.h2)))
  ⟨u32 (t1 + t2), s.h0, s.h1, s.h2, u32 (s.h3 + t1), s.h4, s.h5, s.h6⟩

/-- The sixty-four rounds over the schedule `w`. -/
def rounds (s : Digest) (w : List Nat) : Digest :=
  (K.zip w).foldl (fun s kw => round s kw.1 kw.2) s

/-- `blockGeneric` on one 64-byte chunk. -/
def block (d : Digest) (p : GoString) : Digest :=
  let s := rounds d (extend 48 (words 16 p))
  ⟨u32 (d.h0 + s.h0), u32 (d.h1 + s.h1), u32 (d.h2 + s.h2), u32 (d.h3 + s.h3),
   u32 (d.h4 + s.h4), u32 (d.h5 + s.h5), u32 (d.h6 + s.h6), u32 (d.h7 + s.h7)⟩

/-- `blockGeneric` on `n` successive 64-byte chunks of `p`
(`for len(p) >= chunk`). -/
def blocks : Nat → Digest → GoString → Digest
  | 0, d, _ => d
  | n + 1, d, p => blocks n (block d (p.take 64)) (p.drop 64)

/-- Big-endian bytes of a 64-bit value (`binary.BigEndian.PutUint64`). -/
def be64 (x : Nat) : GoString :=
  [byte (x >>> 56), byte (x >>> 48), byte (x >>> 40), byte (x >>> 32),
   byte (x >>> 24), byte (x >>> 16), byte (x >>> 8), byte x]

/-- Big-endian bytes of a 32-bit value (`binary.BigEndian.PutUint32`). -/
def be32 (x : Nat) : GoString :=
  [byte (x >>> 24), byte (x >>> 16), byte (x >>> 8), byte x]

/-- The padding `checkSum` writes: `0x80`, zeros up to 56 modulo 64, then the
message length in bits as a 64-bit big-endian number. -/
def pad (msg : GoString) : GoString :=
  let len := msg.length
  let zeros := if len % 64 < 56 then 55 - len % 64 else 64 + 55 - len % 64
  msg ++ [byte 0x80] ++ List.replicate zeros (byte 0) ++ be64 ((len <<< 3) % 2 ^ 64)

/-- The hash `h := sha256.New(); h.Write(msg); h.Sum(nil)`: 32 bytes. -/
def Sum (msg : GoString) : GoString :=
  let p := pad msg
  let d := blocks (p.length / 64) init p
  be32 d.h0 ++ be32 d.h1 ++ be32 d.h2 ++ be32 d.h3 ++ be32 d.h4 ++ be32 d.h5 ++ be32 d.h6
    ++ be32 d.h7

end sha256

/-! ## `encoding/base64` -/

namespace base64

/-- The URL-safe alphabet `encodeURL`. -/
def encodeURL : GoString :=
  lit "ABCDEFGHIJKLMNOPQRSTUVWXYZabcdefghijklmnopqrstuvwxyz0123456789-_"

/-- The character `enc.encode[i]` of the URL-safe alphabet. -/
def enc (i : Nat) : Byte := encodeURL.getD (i &&& 0x3F) 0

/-- `base64.RawURLEncoding.EncodeToString`: URL-safe alphabet, no padding. -/
def RawURLEncodeToString : GoString → GoString
  | a :: b :: c :: rest =>
    let val := a.val <<< 16 ||| b.val <<< 8 ||| c.val
    enc (val >>> 18) :: enc (val >>> 12) :: enc (val >>> 6) :: enc val
      :: RawURLEncodeToString rest
  | [a, b] =>
    let val := a.val <<< 16 ||| b.val <<< 8
    [enc (val >>> 18), enc (val >>> 12), enc (val >>> 6)]
  | [a] =>
    let val := a.val <<< 16
    [enc (val >>> 18), enc (val >>> 12)]
  | [] => []

end base64

/-! ## `crypto/subtle` -/

namespace subtle

/-- `subtle.ConstantTimeByteEq`: `int((uint32(x^y) - 1) >> 31)`, which is 1
when the two bytes are equal and 0 otherwise. -/
def ConstantTimeByteEq (x y : Byte) : Nat :=
  (((x ^^^ y).val + 2 ^ 32 - 1) % 2 ^ 32) >>> 31

/-- The loop `for i := 0; i < len(x); i++ { v |= x[i] ^ y[i] }` of
`ConstantTimeCompare`, started with accumulator `v` after `n` iterations.
It returns the final accumulator and the number of byte comparisons
(XOR-and-accumulate steps) executed in total. -/
def compareLoop : GoString → GoString → Byte → Nat → Byte × Nat
  | a :: x, b :: y, v, n => compareLoop x y (v ||| (a ^^^ b)) (n + 1)
  | _, _, v, n => (v, n)

/-- `subtle.ConstantTimeCompare`, instrumented: the returned pair is the
result (1 when the slices are equal, 0 otherwise) and the number of byte
comparisons performed.  Slices of different lengths are rejected before any
byte is looked at. -/
def ConstantTimeCompareCount (x y : GoString) : Nat × Nat :=
  if x.length ≠ y.length then (0, 0)
  else
    let r := compareLoop x y 0 0
    (ConstantTimeByteEq r.1 0, r.2)

/-- `subtle.ConstantTimeCompare`: the result of the comparison. -/
def ConstantTimeCompare (x y : GoString) : Nat := (ConstantTimeCompareCount x y).1

end subtle

/-! ## `unicode/utf8` decoding -/

namespace utf8

/-- The rune `utf8.RuneError`, U+FFFD. -/
def RuneError : Nat := 0xFFFD

/-- Continuation-byte test `locb <= b && b <= hicb`. -/
def cont (b : Byte) : Bool := 0x80 ≤ b.val && b.val ≤ 0xBF

/-- The entry of the table `first` for a leading byte at or above `0xC2`,
as a triple: the length of the sequence and the accepted range of the second
byte (`acceptRanges`).  Length 1 stands for an invalid leading byte. -/
def first (p0 : Nat) : Nat × Nat × Nat :=
  if p0 < 0xC2 then (1, 0, 0)
  else if p0 ≤ 0xDF then (2, 0x80, 0xBF)
  else if p0 = 0xE0 then (3, 0xA0, 0xBF)
  else if p0 = 0xED then (3, 0x80, 0x9F)
  else if p0 ≤ 0xEF then (3, 0x80, 0xBF)
  else if p0 = 0xF0 then (4, 0x90, 0xBF)
  else if p0 ≤ 0xF3 then (4, 0x80, 0xBF)
  else if p0 = 0xF4 then (4, 0x80, 0x8F)
  else (1, 0, 0)

/-- `utf8.DecodeRuneInString`: the first rune of `p` and its width in bytes.
An invalid or truncated encoding yields `(RuneError, 1)`, the empty string
`(RuneError, 0)`. -/
def DecodeRune : GoString → Nat × Nat
  | [] => (RuneError, 0)
  | p0 :: rest =>
    if p0.val < 0x80 then (p0.val, 1)
    else
      let (sz, lo, hi) := first p0.val
      if sz = 1 then (RuneError, 1)
      else
        match rest with
        | [] => (RuneError, 1)
        | b1 :: rest1 =>
          if b1.val < lo ∨ hi < b1.val then (RuneError, 1)
          else if sz = 2 then (((p0.val &&& 0x1F) <<< 6) ||| (b1.val &&& 0x3F), 2)
          else
            match rest1 with
            | [] => (RuneError, 1)
            | b2 :: rest2 =>
              if !cont b2 then (RuneError, 1)
              else if sz = 3 then
                (((p0.val &&& 0x0F) <<< 12) ||| ((b1.val &&& 0x3F) <<< 6) ||| (b2.val &&& 0x3F), 3)
              else
                match rest2 with
                | [] => (RuneError, 1)
                | b3 :: _ =>
                  if !cont b3 then (RuneError, 1)
                  else
                    (((p0.val &&& 0x07) <<< 18) ||| ((b1.val &&& 0x3F) <<< 12)
                      ||| ((b2.val &&& 0x3F) <<< 6) ||| (b3.val &&& 0x3F), 4)

/-- The decoding loop shared by `range` over a string and `utf8.Valid`: the
successive `(rune, width, first byte)` triples of `s`.  Every step consumes at
least one byte, so `fuel = len(s)` steps exhaust the string. -/
def decodeAll : Nat → GoString → List (Nat × Nat × Byte)
  | 0, _ => []
  | _, [] => []
  | fuel + 1, p0 :: rest =>
    let (r, w) := DecodeRune (p0 :: rest)
    (r, w, p0) :: decodeAll fuel ((p0 :: rest).drop w)

/-- `utf8.Valid`: no position of `s` decodes to an encoding error. -/
def Valid (s : GoString) : Bool :=
  (decodeAll s.length s).all (fun t => !(t.1 = RuneError && t.2.1 = 1))

end utf8

/-! ## `strconv` quoting and `fmt` verbs -/

namespace strconv

/-- The digit `lowerhex[n & 0xF]`. -/
def lowerhex (n : Nat) : Byte := (lit "0123456789abcdef").getD (n &&& 0xF) 0

/-- `strconv.IsPrint`.  The Latin-1 range is decided by the fast path of the
library; for runes above U+00FF the library consults its Unicode tables
(`isPrint16`, `isNotPrint16`, `isPrint32`, `isNotPrint32`), which enter here
as the parameter `tbl`. -/
def IsPrint (tbl : Nat → Bool) (r : Nat) : Bool :=
  if r ≤ 0xFF then
    if 0x20 ≤ r ∧ r ≤ 0x7E then true
    else if 0xA1 ≤ r ∧ r ≤ 0xFF then r != 0xAD
    else false
  else tbl r

/-- `strconv.appendEscapedRune` for the double quote, neither ASCII-only nor
graphic-only: the text that stands for the rune `r` inside a quoted string. -/
def appendEscapedRune (tbl : Nat → Bool) (r : Nat) : GoString :=
  if r = 0x22 ∨ r = 0x5C then [byte 0x5C, byte r]
  else if IsPrint tbl r then encodeRune r
  else if r = 7 then lit "\\a"
  else if r = 8 then lit "\\b"
  else if r = 12 then lit "\\f"
  else if r = 10 then lit "\\n"
  else if r = 13 then lit "\\r"
  else if r = 9 then lit "\\t"
  else if r = 11 then lit "\\v"
  else if r < 0x20 ∨ r = 0x7F then lit "\\x" ++ [lowerhex (r >>> 4), lowerhex r]
  else if r > 0x10FFFF ∨ (0xD800 ≤ r ∧ r ≤ 0xDFFF) then lit "\\ufffd"
  else if r < 0x10000 then
    lit "\\u" ++ [lowerhex (r >>> 12), lowerhex (r >>> 8), lowerhex (r >>> 4), lowerhex r]
  else
    lit "\\U" ++ [lowerhex (r >>> 28), lowerhex (r >>> 24), lowerhex (r >>> 20),
      lowerhex (r >>> 16), lowerhex (r >>> 12), lowerhex (r >>> 8), lowerhex (r >>> 4),
      lowerhex r]

/-- One step of the loop of `strconv.appendQuotedWith`: a byte that is not
the start of a valid encoding is written as `\xhh`, every other rune goes
through `appendEscapedRune`. -/
def quoteStep (tbl : Nat → Bool) (t : Nat × Nat × Byte) : GoString :=
  if t.2.1 = 1 ∧ t.1 = utf8.RuneError then
    lit "\\x" ++ [lowerhex (t.2.2.val >>> 4), lowerhex t.2.2.val]
  else appendEscapedRune tbl t.1

/-- `strconv.Quote`, which is what the verb `%q` of `fmt` prints for a string
operand: the string between double quotes, escaped with Go syntax. -/
def Quote (tbl : Nat → Bool) (s : GoString) : GoString :=
  [byte 0x22] ++ (utf8.decodeAll s.length s).flatMap (quoteStep tbl) ++ [byte 0x22]

/-- The verb `%d` of `fmt` for a non-negative `int`: decimal digits. -/
def Itoa (n : Nat) : GoString := (Nat.toDigits 10 n).map (fun c => byte c.toNat)

end strconv

/-! ## Run-time panics -/

/-- The run-time panics of indexing and slicing. -/
inductive Panic where
  | indexOutOfRange
  | sliceBoundsOutOfRange
deriving DecidableEq, Repr

/-- The index expression `l[i]`: panics when `i` is not below `len(l)`. -/
def index {α : Type} (l : List α) (i : Nat) : Except Panic α :=
  match l.get? i with
  | some a => .ok a
  | none => .error .indexOutOfRange

/-- The slice expression `s[lo:hi]` of a string: panics unless
`lo <= hi <= len(s)`. -/
def slice (s : GoString) (lo hi : Nat) : Except Panic GoString :=
  if lo ≤ hi ∧ hi ≤ s.length then .ok ((s.take hi).drop lo)
  else .error .sliceBoundsOutOfRange

/-! ## `net.IP` -/

/-- A `net.IP`: a byte slice, 4 bytes for the short IPv4 form and 16 bytes
for IPv6 and the IPv4-mapped form. -/
abbrev IP := List Byte

/-- `net.IP.To4`: the 4-byte form of an IPv4 address, `none` (nil) when the
address is not an IPv4 address.  A 16-byte address qualifies when it has the
prefix `00 .. 00 ff ff` of an IPv4-mapped address. -/
def IP.To4 (ip : IP) : Option IP :=
  if ip.length = 4 then some ip
  else if ip.length = 16 ∧ (ip.take 10).all (fun b => b = 0) ∧ ip.getD 10 0 = 0xff
      ∧ ip.getD 11 0 = 0xff then
    some ((ip.drop 12).take 4)
  else none

/-! ## Errors -/

/-- An `error` value that is not a `*bdns.DNSError`: one of the two context
sentinels, or any other error, given by the text of its `Error()` method. -/
inductive PlainError where
  | Canceled
  | DeadlineExceeded
  | New (text : GoString)
deriving DecidableEq, Repr

/-- The method `Error()` of a plain error. -/
def PlainError.Error : PlainError → GoString
  | .Canceled => lit "context canceled"
  | .DeadlineExceeded => lit "context deadline exceeded"
  | .New text => text

/-- A `bdns.DNSError`: the four fields of the struct literal
`DNSError{recordType, hostname, underlying, rCode}`, and the text its method
`Error()` renders them to (the method is declared in `bdns/problem.go`). -/
structure DNSError where
  recordType : Nat
  hostname : GoString
  underlying : Option PlainError
  rCode : Int
  text : GoString
deriving DecidableEq, Repr

/-- A non-nil `error` interface value, by dynamic type: a `*bdns.DNSError` or
anything else. -/
inductive GoError where
  | plain (e : PlainError)
  | dns (e : DNSError)
deriving DecidableEq, Repr

/-- The method `Error()`: the string form of an error. -/
def GoError.Error : GoError → GoString
  | .plain e => e.Error
  | .dns e => e.text

/-! ## Identifiers, challenges, problems -/

/-- An `identifier.ACMEIdentifier`: a type tag (the field `Type`) and a
value. -/
structure ACMEIdentifier where
  Typ : GoString
  Value : GoString
deriving DecidableEq, Repr

/-- Modelled from the spec: the constant `identifier.DNS`, the type tag of a
domain-name identifier, declared in package `identifier`. -/
def identifier.DNS : GoString := lit "dns"

/-- Modelled from the spec: the constant `core.DNSPrefix`, the label under
which the challenge record is published (`"_acme-challenge." + domain`). -/
def core.DNSPrefix : GoString := lit "_acme-challenge"

/-- A `core.Challenge`, of which the validator reads the key authorization. -/
structure Challenge where
  ProvidedKeyAuthorization : GoString
deriving DecidableEq, Repr

/-- A `core.ValidationRecord`; the validator sets `Hostname` and leaves every
other field at its zero value. -/
structure ValidationRecord where
  Hostname : GoString
deriving DecidableEq, Repr

/-- The kinds of problem this code produces. -/
inductive ProblemType where
  | Malformed
  | Unauthorized
  | DNS
deriving DecidableEq, Repr

/-- A `probs.ProblemDetails`: a kind (the field `Type`) and a message. -/
structure ProblemDetails where
  Typ : ProblemType
  Detail : GoString
deriving DecidableEq, Repr

/-- Modelled from the spec: `probs.Malformed`, declared in package `probs`;
the problem of kind `Malformed` with the given message. -/
def probs.Malformed (detail : GoString) : ProblemDetails := ⟨.Malformed, detail⟩

/-- Modelled from the spec: `probs.Unauthorized`, declared in package
`probs`; the problem of kind `Unauthorized` with the given (formatted)
message. -/
def probs.Unauthorized (detail : GoString) : ProblemDetails := ⟨.Unauthorized, detail⟩

/-- Modelled from the spec: `probs.DNS`, declared in package `probs`; the
problem of kind `DNS` whose message is the given string. -/
def probs.DNS (detail : GoString) : ProblemDetails := ⟨.DNS, detail⟩

/-- The kinds of `berrors.BoulderError` named by the error taxonomy. -/
inductive ErrorType where
  | Malformed
  | Unauthorized
  | DNS
deriving DecidableEq, Repr

/-- A `berrors.BoulderError`: a kind (the field `Type`) and a message. -/
structure BoulderError where
  Typ : ErrorType
  Detail : GoString
deriving DecidableEq, Repr

/-- Modelled from the spec: `berrors.DNSError`, declared in package `errors`;
the DNS-kind error with the given (formatted) message. -/
def berrors.DNSError (detail : GoString) : BoulderError := ⟨.DNS, detail⟩

/-- Modelled from the spec: `replaceInvalidUTF8`, declared in
`va/utf8filter.go`; a valid string is returned as it is, otherwise the string
is re-encoded rune by rune, every byte that does not start a valid encoding
being replaced by the placeholder character U+FFFD. -/
def replaceInvalidUTF8 (input : GoString) : GoString :=
  if utf8.Valid input then input
  else (utf8.decodeAll input.length input).flatMap (fun t => encodeRune t.1)

/-! ## Observable effects: resolver calls and log entries -/

/-- An operand of a log call. -/
inductive LogArg where
  | str (s : GoString)
  | ident (i : ACMEIdentifier)
  | err (e : GoError)
  | cause (e : PlainError)
  | addrs (l : List IP)
deriving DecidableEq, Repr

/-- What a run does besides returning: resolver calls and log entries, each
log entry with its format string and operands. -/
inductive Event where
  | LookupTXT (hostname : GoString)
  | LookupHost (hostname : GoString)
  | Debugf (format : GoString) (args : List LogArg)
  | Infof (format : GoString) (args : List LogArg)
  | Errf (format : GoString) (args : List LogArg)
deriving DecidableEq, Repr

/-- The resolver client `bdns.DNSClient`, as far as this code calls it. A
lookup returns a result and an error (`none` for nil). -/
structure DNSClient where
  LookupTXT : GoString → List GoString × Option GoError
  LookupHost : GoString → List IP × Option GoError

/-- The `ValidationAuthorityImpl`, of which this code uses the resolver
client; its logger is represented by the log entries of the event list. -/
structure ValidationAuthorityImpl where
  dnsClient : DNSClient

/-! ## `va/dns.go` -/

/-- `logDNSError`: the log entries written for the error `err` met while
looking up `ident`. -/
def logDNSError (ident : GoString) (err : GoError) : List Event :=
  match err with
  | .dns dnsErr =>
    match dnsErr.underlying with
    | some underlying =>
      if underlying ≠ .Canceled ∧ underlying ≠ .DeadlineExceeded then
        [.Errf (lit "For identifier %q: err=[%s], underlying=[%s]")
          [.str ident, .err err, .cause underlying]]
      else []
    | none => []
  | .plain _ => []

/-- `getAddrs`: the returned pair (address list, error) and the events. -/
def getAddrs (va : ValidationAuthorityImpl) (hostname : GoString) :
    (Option (List IP) × Option BoulderError) × List Event :=
  let r := va.dnsClient.LookupHost hostname
  match r.2 with
  | some err =>
    ((none, some (berrors.DNSError err.Error)), .LookupHost hostname :: logDNSError hostname err)
  | none =>
    if r.1.length = 0 then
      ((none, some (berrors.DNSError (lit "No valid IP addresses found for " ++ hostname))),
        [.LookupHost hostname])
    else
      ((some r.1, none),
        [.LookupHost hostname,
         .Debugf (lit "Resolved addresses for %s: %s") [.str hostname, .addrs r.1]])

/-- The loop of `availableAddresses` over the remaining addresses, with the
two result slices built so far. -/
def availableAddresses.loop : List IP → List IP → List IP → List IP × List IP
  | [], v4, v6 => (v4, v6)
  | addr :: rest, v4, v6 =>
    if addr.To4 ≠ none then availableAddresses.loop rest (v4 ++ [addr]) v6
    else availableAddresses.loop rest v4 (v6 ++ [addr])

/-- `availableAddresses`: the pair `(v4, v6)`. -/
def availableAddresses (allAddrs : List IP) : List IP × List IP :=
  availableAddresses.loop allAddrs [] []

/-- What `validateDNS01` returns: a validation-record list and a problem,
either of which may be nil (`none`). -/
structure Returned where
  records : Option (List ValidationRecord)
  prob : Option ProblemDetails
deriving DecidableEq, Repr

/-- The loop `for _, element := range txts` of `validateDNS01`: whether some
record compares equal to the digest (the loop returns at the first one), and
the number of byte comparisons that the calls of `subtle.ConstantTimeCompare`
perform on the records the loop looks at. -/
def validateDNS01.anyMatch (authorizedKeysDigest : GoString) : List GoString → Bool × Nat
  | [] => (false, 0)
  | element :: rest =>
    let c := subtle.ConstantTimeCompareCount element authorizedKeysDigest
    if c.1 = 1 then (true, c.2)
    else
      ((validateDNS01.anyMatch authorizedKeysDigest rest).1,
        c.2 + (validateDNS01.anyMatch authorizedKeysDigest rest).2)

/-- The run of `validateDNS01` with its cost: the returned pair, the events,
and the number of byte comparisons performed, or a run-time panic.  `tbl` is
the Unicode table behind `strconv.IsPrint`. -/
def validateDNS01.counted (tbl : Nat → Bool) (va : ValidationAuthorityImpl)
    (ident : ACMEIdentifier) (challenge : Challenge) :
    Except Panic ((Returned × List Event) × Nat) :=
  if ident.Typ ≠ identifier.DNS then
    .ok ((⟨none, some (probs.Malformed (lit "Identifier type for DNS was not itself DNS"))⟩,
      [.Infof (lit "Identifier type for DNS challenge was not DNS: %s") [.ident ident]]), 0)
  else
    let authorizedKeysDigest :=
      base64.RawURLEncodeToString (sha256.Sum challenge.ProvidedKeyAuthorization)
    let challengeSubdomain := core.DNSPrefix ++ lit "." ++ ident.Value
    let r := va.dnsClient.LookupTXT challengeSubdomain
    let txts := r.1
    match r.2 with
    | some err =>
      .ok ((⟨none, some (probs.DNS err.Error)⟩,
        .LookupTXT challengeSubdomain :: logDNSError ident.Value err), 0)
    | none =>
      if txts.length = 0 then
        .ok ((⟨none, some (probs.Unauthorized (lit "No TXT record found at " ++ challengeSubdomain))⟩,
          [.LookupTXT challengeSubdomain]), 0)
      else
        let found := validateDNS01.anyMatch authorizedKeysDigest txts
        if found.1 then
          .ok ((⟨some [⟨ident.Value⟩], none⟩, [.LookupTXT challengeSubdomain]), found.2)
        else do
          let invalidRecord ← index txts 0
          let invalidRecord ←
            if invalidRecord.length > 100 then do
              let head ← slice invalidRecord 0 100
              pure (head ++ lit "...")
            else pure invalidRecord
          let andMore :=
            if txts.length > 1 then lit " (and " ++ strconv.Itoa (txts.length - 1) ++ lit " more)"
            else []
          pure ((⟨none, some (probs.Unauthorized (lit "Incorrect TXT record "
              ++ strconv.Quote tbl (replaceInvalidUTF8 invalidRecord) ++ andMore
              ++ lit " found at " ++ challengeSubdomain))⟩,
            [.LookupTXT challengeSubdomain]), found.2)

/-- `validateDNS01`: the returned pair and the events of the run, or a
run-time panic; the run of `validateDNS01.counted` without its cost. -/
def validateDNS01 (tbl : Nat → Bool) (va : ValidationAuthorityImpl) (ident : ACMEIdentifier)
    (challenge : Challenge) : Except Panic (Returned × List Event) :=
  match validateDNS01.counted tbl va ident challenge with
  | .ok (result, _) => .ok result
  | .error p => .error p

/-! ## `bdns/mocks.go` -/

/-- `MockDNSClient.LookupTXT`. -/
def MockDNSClient.LookupTXT (hostname : GoString) : List GoString × Option GoError :=
  if hostname = lit "_acme-challenge.servfail.com" then
    ([], some (.plain (.New (lit "SERVFAIL"))))
  else if hostname = lit "_acme-challenge.good-dns01.com" then
    ([lit "LPsIwTo7o8BoG0-vjCyGQGBWSVIPxI-i_X336eUOQZo"], none)
  else if hostname = lit "_acme-challenge.wrong-dns01.com" then
    ([lit "a"], none)
  else if hostname = lit "_acme-challenge.wrong-many-dns01.com" then
    ([lit "a", lit "b", lit "c", lit "d", lit "e"], none)
  else if hostname = lit "_acme-challenge.long-dns01.com" then
    ([lit "aaaaaaaaaaaaaaaaaaaaaaaaaaaaaaaaaaaaaaaaaaaaaaaaaaaaaaaaaaaaaaaaaaaaaaaaaaaaaaaaaaaaaaaaaaaaaaaaaaaaaaaaaaaaaaaaaaaaaaaaaaaaaaaaaaaaaaaaaaaaaaaaaaaaaaaaaaaaaaaaaaaaaaaaaaaaaaaaaaaaaaaaaaaaaaaaaaaaaaaaa"], none)
  else if hostname = lit "_acme-challenge.no-authority-dns01.com" then
    ([lit "LPsIwTo7o8BoG0-vjCyGQGBWSVIPxI-i_X336eUOQZo"], none)
  else if hostname = lit "_acme-challenge.empty-txts.com" then
    ([], none)
  else ([lit "hostname"], none)

/-- The result of `net.ParseIP("::1")`: the 16-byte loopback address. -/
def ipv6Loopback : IP := [0, 0, 0, 0, 0, 0, 0, 0, 0, 0, 0, 0, 0, 0, 0, 1]

/-- The result of `net.ParseIP("127.0.0.1")`: the 16-byte IPv4-mapped form. -/
def ipv4Loopback : IP := [0, 0, 0, 0, 0, 0, 0, 0, 0, 0, 0xff, 0xff, 127, 0, 0, 1]

/-- `MockDNSClient.LookupHost`.  The two `DNSError` values built by the mock
carry the text that `render` gives for their fields; `timeout` and `netErr`
are the strings of the underlying `*net.OpError` values. -/
def MockDNSClient.LookupHost
    (render : Nat → GoString → Option PlainError → Int → GoString) (timeout netErr : GoString)
    (hostname : GoString) : List IP × Option GoError :=
  if hostname = lit "always.invalid" ∨ hostname = lit "invalid.invalid" then ([], none)
  else if hostname = lit "always.timeout" then
    ([], some (.dns ⟨1, lit "always.timeout", some (.New timeout), -1,
      render 1 (lit "always.timeout") (some (.New timeout)) (-1)⟩))
  else if hostname = lit "always.error" then
    ([], some (.dns ⟨1, lit "always.error", some (.New netErr), -1,
      render 1 (lit "always.error") (some (.New netErr)) (-1)⟩))
  else if hostname = lit "ipv4.and.ipv6.localhost" then ([ipv6Loopback, ipv4Loopback], none)
  else if hostname = lit "ipv6.localhost" then ([ipv6Loopback], none)
  else ([ipv4Loopback], none)

/-- The mock resolver as a client. -/
def MockDNSClient (render : Nat → GoString → Option PlainError → Int → GoString)
    (timeout netErr : GoString) : DNSClient :=
  ⟨MockDNSClient.LookupTXT, MockDNSClient.LookupHost render timeout netErr⟩

/-- The validation authority whose resolver is the mock of `bdns/mocks.go`
(with stand-in texts for the two resolution errors of its host lookup). -/
def mockVA : ValidationAuthorityImpl :=
  ⟨MockDNSClient (fun _ _ _ _ => lit "DNS problem") (lit "timeout") (lit "net error")⟩

/-- A resolver that answers every TXT query with the given records. -/
def constTXT (txts : List GoString) : ValidationAuthorityImpl :=
  ⟨⟨fun _ => (txts, none), fun _ => ([], none)⟩⟩

/-- A printable ASCII character other than the double quote and the
backslash: the bytes that `%q` prints as they are. -/
def plainASCII (b : Byte) : Bool :=
  decide (0x20 ≤ b.val) && decide (b.val ≤ 0x7E) && decide (b.val ≠ 0x22) && decide (b.val ≠ 0x5C)

/-- Whether an event is a call to the resolver. -/
def Event.isResolverCall : Event → Bool
  | .LookupTXT _ => true
  | .LookupHost _ => true
  | _ => false

/-- A resolver that answers every host query with the given addresses and
error. -/
def constHost (addrs : List IP) (err : Option GoError) : ValidationAuthorityImpl :=
  ⟨⟨fun _ => ([], none), fun _ => (addrs, err)⟩⟩

/-- A character of the URL-safe base64 alphabet: `A-Z`, `a-z`, `0-9`, `-`
and `_`. -/
def isURLChar (c : Byte) : Bool :=
  (decide (0x41 ≤ c.val) && decide (c.val ≤ 0x5A))
    || (decide (0x61 ≤ c.val) && decide (c.val ≤ 0x7A))
    || (decide (0x30 ≤ c.val) && decide (c.val ≤ 0x39))
    || decide (c.val = 0x2D) || decide (c.val = 0x5F)

/-! ## zlint: `lint_generalized_time_not_in_zulu.go` -/

/-- The index expression `l[i]` with a signed index: panics when `i` is
negative or not below `len(l)`. -/
def indexInt {α : Type} (l : List α) (i : Int) : Except Panic α :=
  if i < 0 then .error .indexOutOfRange else index l i.toNat

/-- An `asn1.RawValue`, by its tag and its content bytes. -/
structure RawValue where
  Tag : Int
  Bytes : GoString
deriving DecidableEq, Repr

/-- The two helpers of package `util` that the lint calls and that are
declared outside the files at hand: `util.GetTimes`, which extracts the two
validity dates of a certificate, and `util.FindTimeType`, which gives the
ASN.1 tags of the two dates. -/
structure Util (Certificate : Type) where
  GetTimes : Certificate → RawValue × RawValue
  FindTimeType : RawValue → RawValue → Int × Int

/-- The lint `generalizedNotZulu` with its two flags. -/
structure generalizedNotZulu where
  date1Gen : Bool
  date2Gen : Bool
deriving DecidableEq, Repr

/-- The statuses this lint returns. -/
inductive LintStatus where
  | Pass
  | Error
deriving DecidableEq, Repr

/-- A `LintResult`, by its status. -/
structure LintResult where
  Status : LintStatus
deriving DecidableEq, Repr

/-- `generalizedNotZulu.CheckApplies`: the returned boolean and the lint with
its flags set. -/
def generalizedNotZulu.CheckApplies {Certificate : Type} (util : Util Certificate)
    (_l : generalizedNotZulu) (c : Certificate) : Bool × generalizedNotZulu :=
  let dates := util.GetTimes c
  let tags := util.FindTimeType dates.1 dates.2
  let l : generalizedNotZulu := ⟨decide (tags.1 = 24), decide (tags.2 = 24)⟩
  (l.date1Gen || l.date2Gen, l)

/-- The second half of `Execute`: the check of the second date and the final
`Pass`. -/
def generalizedNotZulu.Execute.second (l : generalizedNotZulu) (date2 : RawValue) :
    Except Panic LintResult :=
  if l.date2Gen then
    match indexInt date2.Bytes ((date2.Bytes.length : Int) - 1) with
    | .error p => .error p
    | .ok b => if b ≠ 0x5A then .ok ⟨.Error⟩ else .ok ⟨.Pass⟩
  else .ok ⟨.Pass⟩

/-- `generalizedNotZulu.Execute`: the lint result, or a run-time panic. -/
def generalizedNotZulu.Execute {Certificate : Type} (util : Util Certificate)
    (l : generalizedNotZulu) (c : Certificate) : Except Panic LintResult :=
  let dates := util.GetTimes c
  if l.date1Gen then
    match indexInt dates.1.Bytes ((dates.1.Bytes.length : Int) - 1) with
    | .error p => .error p
    | .ok b =>
      if b ≠ 0x5A then .ok ⟨.Error⟩ else generalizedNotZulu.Execute.second l dates.2
  else generalizedNotZulu.Execute.second l dates.2

/-- The helpers of package `util` on a certificate that is given by its two
validity dates: the dates themselves and their tags. -/
def plainUtil : Util (RawValue × RawValue) :=
  ⟨fun c => c, fun firstDate secondDate => (firstDate.Tag, secondDate.Tag)⟩

/-- A string that decodes without an encoding error whatever follows it: the
decoding loop on `s ++ rest` yields error-free steps for `s` and goes on with
`rest`. -/
def utf8.Clean (s : GoString) : Prop :=
  ∀ (rest : GoString) (fuel : Nat), (s ++ rest).length ≤ fuel →
    ∃ D, utf8.decodeAll fuel (s ++ rest) = D ++ utf8.decodeAll rest.length rest
      ∧ D.all (fun t => !(t.1 = utf8.RuneError && t.2.1 = 1)) = true

end Boulder

/-! # Properties -/

namespace Boulder

/-! ## Constant-time comparison -/

/-- A bitwise OR of naturals vanishes exactly when both operands do. -/
theorem Nat.lor_eq_zero {a b : Nat} : a ||| b = 0 ↔ a = 0 ∧ b = 0 := by
  constructor
  · intro h
    have key : ∀ i, a.testBit i = false ∧ b.testBit i = false := by
      intro i
      have := congrArg (fun n => Nat.testBit n i) h
      simpa [Nat.testBit_or] using this
    exact ⟨Nat.eq_of_testBit_eq (fun i => by simp [(key i).1]),
      Nat.eq_of_testBit_eq (fun i => by simp [(key i).2])⟩
  · rintro ⟨rfl, rfl⟩
    rfl

/-- A bitwise OR of bytes vanishes exactly when both bytes do. -/
theorem Byte.or_eq_zero (v w : Byte) : v ||| w = 0 ↔ v = 0 ∧ w = 0 := by
  have h : v.val ||| w.val < 256 :=
    Nat.or_lt_two_pow (n := 8) v.isLt w.isLt
  have e : (v ||| w).val = (v.val ||| w.val) % 256 := rfl
  rw [Fin.ext_iff, Fin.ext_iff, Fin.ext_iff, e, Nat.mod_eq_of_lt h]
  exact Nat.lor_eq_zero

/-- The XOR of two bytes vanishes exactly when they are equal. -/
theorem Byte.xor_eq_zero (a b : Byte) : a ^^^ b = 0 ↔ a = b := by
  have h : a.val ^^^ b.val < 256 :=
    Nat.xor_lt_two_pow (n := 8) a.isLt b.isLt
  have e : (a ^^^ b).val = (a.val ^^^ b.val) % 256 := rfl
  rw [Fin.ext_iff, Fin.ext_iff, e, Nat.mod_eq_of_lt h]
  exact Nat.xor_eq_zero

/-- `ConstantTimeByteEq v 0` is 1 exactly for the zero byte. -/
theorem subtle.ConstantTimeByteEq_zero (v : Byte) :
    subtle.ConstantTimeByteEq v 0 = 1 ↔ v = 0 := by
  have hv := v.isLt
  have e : (v ^^^ (0 : Byte)).val = v.val := by
    have : (v ^^^ (0 : Byte)).val = (v.val ^^^ 0) % 256 := rfl
    rw [this, Nat.xor_zero, Nat.mod_eq_of_lt hv]
  unfold subtle.ConstantTimeByteEq
  rw [e, Fin.ext_iff]
  constructor
  · intro h
    by_contra hne
    have hpos : 0 < v.val := Nat.pos_of_ne_zero hne
    have h1 : (v.val + 2 ^ 32 - 1) % 2 ^ 32 = v.val - 1 := by
      have : v.val + 2 ^ 32 - 1 = (v.val - 1) + 2 ^ 32 := by omega
      rw [this, Nat.add_mod_right, Nat.mod_eq_of_lt (by omega)]
    rw [h1, Nat.shiftRight_eq_div_pow] at h
    have : (v.val - 1) / 2 ^ 31 = 0 := Nat.div_eq_of_lt (by omega)
    omega
  · intro h
    have h0 : v.val = 0 := h
    rw [h0]
    decide

/-- The accumulator of the comparison loop ends at zero exactly when it
started at zero and the two slices are equal. -/
theorem subtle.compareLoop_fst (x : GoString) :
    ∀ (y : GoString) (v : Byte) (n : Nat), x.length = y.length →
      ((subtle.compareLoop x y v n).1 = 0 ↔ v = 0 ∧ x = y) := by
  induction x with
  | nil =>
    intro y v n h
    cases y with
    | nil => simp [subtle.compareLoop]
    | cons b y => simp at h
  | cons a x ih =>
    intro y v n h
    cases y with
    | nil => simp at h
    | cons b y =>
      have hl : x.length = y.length := by simpa using h
      simp only [subtle.compareLoop]
      rw [ih y _ _ hl, Byte.or_eq_zero, Byte.xor_eq_zero]
      constructor
      · rintro ⟨⟨hv, rfl⟩, rfl⟩
        exact ⟨hv, rfl⟩
      · rintro ⟨hv, hxy⟩
        injection hxy with h1 h2
        exact ⟨⟨hv, h1⟩, h2⟩

/-- The comparison loop performs one byte comparison per element, whatever
the bytes are. -/
theorem subtle.compareLoop_snd (x : GoString) :
    ∀ (y : GoString) (v : Byte) (n : Nat), x.length = y.length →
      (subtle.compareLoop x y v n).2 = n + x.length := by
  induction x with
  | nil =>
    intro y v n h
    cases y with
    | nil => simp [subtle.compareLoop]
    | cons b y => simp at h
  | cons a x ih =>
    intro y v n h
    cases y with
    | nil => simp at h
    | cons b y =>
      have hl : x.length = y.length := by simpa using h
      simp only [subtle.compareLoop]
      rw [ih y _ _ hl]
      simp only [List.length_cons]
      omega

/-- `subtle.ConstantTimeCompare` returns 1 exactly on equal slices. -/
theorem subtle.ConstantTimeCompare_eq_one (x y : GoString) :
    subtle.ConstantTimeCompare x y = 1 ↔ x = y := by
  unfold subtle.ConstantTimeCompare subtle.ConstantTimeCompareCount
  by_cases h : x.length = y.length
  · simp only [h, ne_eq, not_true_eq_false, if_false]
    rw [subtle.ConstantTimeByteEq_zero, subtle.compareLoop_fst x y 0 0 h]
    simp
  · simp only [ne_eq, h, not_false_eq_true, if_true]
    constructor
    · intro h0
      exact absurd h0 (by decide)
    · intro hxy
      exact absurd (congrArg List.length hxy) h

/-- The loop over the TXT records finds a match exactly when the digest is
one of the records. -/
theorem validateDNS01.anyMatch_iff (digest : GoString) (txts : List GoString) :
    (validateDNS01.anyMatch digest txts).1 = true ↔ digest ∈ txts := by
  induction txts with
  | nil => simp [validateDNS01.anyMatch]
  | cons t rest ih =>
    simp only [validateDNS01.anyMatch, List.mem_cons]
    by_cases h : (subtle.ConstantTimeCompareCount t digest).1 = 1
    · have e := (subtle.ConstantTimeCompare_eq_one t digest).1 h
      rw [if_pos h]
      exact ⟨fun _ => Or.inl e.symm, fun _ => rfl⟩
    · have hne : ¬ t = digest := fun e => h ((subtle.ConstantTimeCompare_eq_one t digest).2 e)
      have hne' : ¬ digest = t := fun e => hne e.symm
      rw [if_neg h, ih]
      exact ⟨Or.inr, fun o => o.resolve_left hne'⟩

/-- The cost of one turn of the loop: a record as long as the digest costs
as many byte comparisons as it has bytes, whether it matches or not; after a
mismatch the loop goes on with the remaining records. -/
theorem validateDNS01.anyMatch_cost (digest t : GoString) (rest : List GoString)
    (hlen : t.length = digest.length) :
    (validateDNS01.anyMatch digest (t :: rest)).2
      = t.length + (if t = digest then 0 else (validateDNS01.anyMatch digest rest).2) := by
  have hc : (subtle.ConstantTimeCompareCount t digest).2 = t.length := by
    unfold subtle.ConstantTimeCompareCount
    rw [if_neg (not_not.mpr hlen)]
    simp only [subtle.compareLoop_snd t digest 0 0 hlen, Nat.zero_add]
  simp only [validateDNS01.anyMatch]
  by_cases h : (subtle.ConstantTimeCompareCount t digest).1 = 1
  · have e : t = digest := (subtle.ConstantTimeCompare_eq_one t digest).1 h
    rw [if_pos h, if_pos e, hc]
    rfl
  · have hne : ¬ t = digest := fun e => h ((subtle.ConstantTimeCompare_eq_one t digest).2 e)
    rw [if_neg h, if_neg hne, hc]

/-! ## The branches of `validateDNS01` -/

/-- The counted run on an identifier that is not of type DNS. -/
theorem validateDNS01.counted_notDNS (tbl : Nat → Bool) (va : ValidationAuthorityImpl)
    (ident : ACMEIdentifier) (challenge : Challenge) (hT : ident.Typ ≠ identifier.DNS) :
    validateDNS01.counted tbl va ident challenge =
      .ok ((⟨none, some (probs.Malformed (lit "Identifier type for DNS was not itself DNS"))⟩,
        [.Infof (lit "Identifier type for DNS challenge was not DNS: %s") [.ident ident]]),
        0) := by
  unfold validateDNS01.counted
  rw [if_pos hT]

/-- The counted run on a failed lookup. -/
theorem validateDNS01.counted_lookupError (tbl : Nat → Bool) (va : ValidationAuthorityImpl)
    (ident : ACMEIdentifier) (challenge : Challenge) (err : GoError)
    (hT : ident.Typ = identifier.DNS)
    (hL : (va.dnsClient.LookupTXT (core.DNSPrefix ++ lit "." ++ ident.Value)).2 = some err) :
    validateDNS01.counted tbl va ident challenge =
      .ok ((⟨none, some (probs.DNS err.Error)⟩,
        .LookupTXT (core.DNSPrefix ++ lit "." ++ ident.Value) :: logDNSError ident.Value err),
        0) := by
  unfold validateDNS01.counted
  rw [if_neg (not_not.mpr hT)]
  simp only [hL]

/-- The counted run on a successful lookup without records. -/
theorem validateDNS01.counted_empty (tbl : Nat → Bool) (va : ValidationAuthorityImpl)
    (ident : ACMEIdentifier) (challenge : Challenge) (hT : ident.Typ = identifier.DNS)
    (hL : va.dnsClient.LookupTXT (core.DNSPrefix ++ lit "." ++ ident.Value) = ([], none)) :
    validateDNS01.counted tbl va ident challenge =
      .ok ((⟨none, some (probs.Unauthorized
          (lit "No TXT record found at " ++ (core.DNSPrefix ++ lit "." ++ ident.Value)))⟩,
        [.LookupTXT (core.DNSPrefix ++ lit "." ++ ident.Value)]), 0) := by
  unfold validateDNS01.counted
  rw [if_neg (not_not.mpr hT)]
  simp only [hL, List.length_nil, if_true]

/-- The counted run on a successful lookup with a matching record. -/
theorem validateDNS01.counted_match (tbl : Nat → Bool) (va : ValidationAuthorityImpl)
    (ident : ACMEIdentifier) (challenge : Challenge) (txts : List GoString)
    (hT : ident.Typ = identifier.DNS)
    (hL : va.dnsClient.LookupTXT (core.DNSPrefix ++ lit "." ++ ident.Value) = (txts, none))
    (hM : base64.RawURLEncodeToString (sha256.Sum challenge.ProvidedKeyAuthorization) ∈ txts) :
    validateDNS01.counted tbl va ident challenge =
      .ok ((⟨some [⟨ident.Value⟩], none⟩,
        [.LookupTXT (core.DNSPrefix ++ lit "." ++ ident.Value)]),
        (validateDNS01.anyMatch
          (base64.RawURLEncodeToString (sha256.Sum challenge.ProvidedKeyAuthorization))
          txts).2) := by
  have hne : txts.length ≠ 0 := by
    intro h0
    rw [List.length_eq_zero] at h0
    rw [h0] at hM
    exact absurd hM (List.not_mem_nil _)
  unfold validateDNS01.counted
  rw [if_neg (not_not.mpr hT)]
  simp only [hL]
  rw [if_neg hne, if_pos ((validateDNS01.anyMatch_iff _ _).2 hM)]

/-- The counted run on a successful lookup with records none of which
matches. -/
theorem validateDNS01.counted_noMatch (tbl : Nat → Bool) (va : ValidationAuthorityImpl)
    (ident : ACMEIdentifier) (challenge : Challenge) (first : GoString) (rest : List GoString)
    (hT : ident.Typ = identifier.DNS)
    (hL : va.dnsClient.LookupTXT (core.DNSPrefix ++ lit "." ++ ident.Value)
      = (first :: rest, none))
    (hM : base64.RawURLEncodeToString (sha256.Sum challenge.ProvidedKeyAuthorization)
      ∉ first :: rest) :
    validateDNS01.counted tbl va ident challenge =
      .ok ((⟨none, some (probs.Unauthorized (lit "Incorrect TXT record "
          ++ strconv.Quote tbl (replaceInvalidUTF8
              (if first.length > 100 then first.take 100 ++ lit "..." else first))
          ++ (if rest.length ≥ 1 then
                lit " (and " ++ strconv.Itoa rest.length ++ lit " more)"
              else [])
          ++ lit " found at " ++ (core.DNSPrefix ++ lit "." ++ ident.Value)))⟩,
        [.LookupTXT (core.DNSPrefix ++ lit "." ++ ident.Value)]),
        (validateDNS01.anyMatch
          (base64.RawURLEncodeToString (sha256.Sum challenge.ProvidedKeyAuthorization))
          (first :: rest)).2) := by
  have hM' : ¬ (validateDNS01.anyMatch
      (base64.RawURLEncodeToString (sha256.Sum challenge.ProvidedKeyAuthorization))
      (first :: rest)).1 = true := fun h => hM ((validateDNS01.anyMatch_iff _ _).1 h)
  unfold validateDNS01.counted
  rw [if_neg (not_not.mpr hT)]
  simp only [hL]
  rw [if_neg (by simp), if_neg hM']
  have hcount : ((first :: rest).length > 1) = (rest.length ≥ 1) := by
    simp only [List.length_cons]
    exact propext ⟨fun h => by omega, fun h => by omega⟩
  have hsub : (first :: rest).length - 1 = rest.length := by simp
  have hidx : index (first :: rest) 0 = .ok first := rfl
  by_cases hlen : first.length > 100
  · have hs : slice first 0 100 = .ok (first.take 100) := by
      unfold slice
      rw [if_pos ⟨Nat.zero_le _, Nat.le_of_lt hlen⟩]
      rfl
    simp only [hidx, hcount, hsub, hlen, if_true, hs, bind, Except.bind, pure, Except.pure]
  · simp only [hidx, hcount, hsub, hlen, if_false, bind, Except.bind, pure, Except.pure]

/-- An identifier that is not of type DNS is rejected before anything else
happens. -/
theorem validateDNS01_notDNS (tbl : Nat → Bool) (va : ValidationAuthorityImpl)
    (ident : ACMEIdentifier) (challenge : Challenge) (hT : ident.Typ ≠ identifier.DNS) :
    validateDNS01 tbl va ident challenge =
      .ok (⟨none, some (probs.Malformed (lit "Identifier type for DNS was not itself DNS"))⟩,
        [.Infof (lit "Identifier type for DNS challenge was not DNS: %s") [.ident ident]]) := by
  unfold validateDNS01
  rw [validateDNS01.counted_notDNS tbl va ident challenge hT]

/-- A failed lookup gives a DNS problem carrying the string of the error. -/
theorem validateDNS01_lookupError (tbl : Nat → Bool) (va : ValidationAuthorityImpl)
    (ident : ACMEIdentifier) (challenge : Challenge) (err : GoError)
    (hT : ident.Typ = identifier.DNS)
    (hL : (va.dnsClient.LookupTXT (core.DNSPrefix ++ lit "." ++ ident.Value)).2 = some err) :
    validateDNS01 tbl va ident challenge =
      .ok (⟨none, some (probs.DNS err.Error)⟩,
        .LookupTXT (core.DNSPrefix ++ lit "." ++ ident.Value) :: logDNSError ident.Value err) := by
  unfold validateDNS01
  rw [validateDNS01.counted_lookupError tbl va ident challenge err hT hL]

/-- A successful lookup without records gives the no-record problem. -/
theorem validateDNS01_empty (tbl : Nat → Bool) (va : ValidationAuthorityImpl)
    (ident : ACMEIdentifier) (challenge : Challenge) (hT : ident.Typ = identifier.DNS)
    (hL : va.dnsClient.LookupTXT (core.DNSPrefix ++ lit "." ++ ident.Value) = ([], none)) :
    validateDNS01 tbl va ident challenge =
      .ok (⟨none, some (probs.Unauthorized
          (lit "No TXT record found at " ++ (core.DNSPrefix ++ lit "." ++ ident.Value)))⟩,
        [.LookupTXT (core.DNSPrefix ++ lit "." ++ ident.Value)]) := by
  unfold validateDNS01
  rw [validateDNS01.counted_empty tbl va ident challenge hT hL]

/-- A successful lookup with a matching record gives the validation record. -/
theorem validateDNS01_match (tbl : Nat → Bool) (va : ValidationAuthorityImpl)
    (ident : ACMEIdentifier) (challenge : Challenge) (txts : List GoString)
    (hT : ident.Typ = identifier.DNS)
    (hL : va.dnsClient.LookupTXT (core.DNSPrefix ++ lit "." ++ ident.Value) = (txts, none))
    (hM : base64.RawURLEncodeToString (sha256.Sum challenge.ProvidedKeyAuthorization) ∈ txts) :
    validateDNS01 tbl va ident challenge =
      .ok (⟨some [⟨ident.Value⟩], none⟩,
        [.LookupTXT (core.DNSPrefix ++ lit "." ++ ident.Value)]) := by
  unfold validateDNS01
  rw [validateDNS01.counted_match tbl va ident challenge txts hT hL hM]

/-- A successful lookup with records none of which matches gives the
wrong-record problem: the quoted, sanitised first record (cut after 100 bytes
and marked with an ellipsis when longer), the count of further records, and
the name looked up. -/
theorem validateDNS01_noMatch (tbl : Nat → Bool) (va : ValidationAuthorityImpl)
    (ident : ACMEIdentifier) (challenge : Challenge) (first : GoString) (rest : List GoString)
    (hT : ident.Typ = identifier.DNS)
    (hL : va.dnsClient.LookupTXT (core.DNSPrefix ++ lit "." ++ ident.Value)
      = (first :: rest, none))
    (hM : base64.RawURLEncodeToString (sha256.Sum challenge.ProvidedKeyAuthorization)
      ∉ first :: rest) :
    validateDNS01 tbl va ident challenge =
      .ok (⟨none, some (probs.Unauthorized (lit "Incorrect TXT record "
          ++ strconv.Quote tbl (replaceInvalidUTF8
              (if first.length > 100 then first.take 100 ++ lit "..." else first))
          ++ (if rest.length ≥ 1 then
                lit " (and " ++ strconv.Itoa rest.length ++ lit " more)"
              else [])
          ++ lit " found at " ++ (core.DNSPrefix ++ lit "." ++ ident.Value)))⟩,
        [.LookupTXT (core.DNSPrefix ++ lit "." ++ ident.Value)]) := by
  unfold validateDNS01
  rw [validateDNS01.counted_noMatch tbl va ident challenge first rest hT hL hM]

/-! ## The DNS-01 validator: outcomes -/

/-- Claim C1: for an identifier of type DNS with value `d`, a key
authorization `k` and a TXT lookup that succeeds with the records `txts`,
`validateDNS01` returns the one-element list `[ValidationRecord{Hostname: d}]`
with a nil problem if and only if some element of `txts` equals
`base64url_nopad(SHA-256(k))`; in particular it does when `txts` is that
digest alone. -/
theorem validateDNS01_succeeds_iff (tbl : Nat → Bool) (va : ValidationAuthorityImpl)
    (ident : ACMEIdentifier) (k : GoString) (txts : List GoString)
    (hT : ident.Typ = identifier.DNS)
    (hL : va.dnsClient.LookupTXT (core.DNSPrefix ++ lit "." ++ ident.Value) = (txts, none)) :
    ((∃ ev, validateDNS01 tbl va ident ⟨k⟩ = .ok (⟨some [⟨ident.Value⟩], none⟩, ev))
      ↔ base64.RawURLEncodeToString (sha256.Sum k) ∈ txts)
    ∧ (txts = [base64.RawURLEncodeToString (sha256.Sum k)] →
        ∃ ev, validateDNS01 tbl va ident ⟨k⟩ = .ok (⟨some [⟨ident.Value⟩], none⟩, ev)) := by
  have hyes : base64.RawURLEncodeToString (sha256.Sum k) ∈ txts →
      ∃ ev, validateDNS01 tbl va ident ⟨k⟩ = .ok (⟨some [⟨ident.Value⟩], none⟩, ev) :=
    fun hM => ⟨_, validateDNS01_match tbl va ident ⟨k⟩ txts hT hL hM⟩
  refine ⟨⟨?_, hyes⟩, fun h => hyes (by rw [h]; exact List.mem_singleton_self _)⟩
  rintro ⟨ev, hev⟩
  by_contra hM
  cases txts with
  | nil =>
    rw [validateDNS01_empty tbl va ident ⟨k⟩ hT hL] at hev
    injection hev with hev
    injection hev with hev _
    injection hev with h1 _
    exact absurd h1 (by simp)
  | cons first rest =>
    rw [validateDNS01_noMatch tbl va ident ⟨k⟩ first rest hT hL hM] at hev
    injection hev with hev
    injection hev with hev _
    injection hev with h1 _
    exact absurd h1 (by simp)

set_option maxRecDepth 1000000 in
set_option maxHeartbeats 4000000 in
/-- Claim C1 at the mock's `good-dns01.com`, whose sole TXT record is the
digest of the test key authorization: the validation succeeds. -/
theorem validateDNS01_succeeds_iff_witness :
    (identifier.DNS = identifier.DNS
      ∧ mockVA.dnsClient.LookupTXT (core.DNSPrefix ++ lit "." ++ lit "good-dns01.com")
        = ([lit "LPsIwTo7o8BoG0-vjCyGQGBWSVIPxI-i_X336eUOQZo"], none))
    ∧ ∃ ev, validateDNS01 (fun _ => false) mockVA ⟨identifier.DNS, lit "good-dns01.com"⟩
        ⟨lit "LoqXcYV8q5ONbJQxbmR7SCTNo3tiAXDfowyjxAjEuX0.9jg46WB3rR_AHD-EBXdN7cBkH1WOu0tA3M9fm21mqTI"⟩
        = .ok (⟨some [⟨lit "good-dns01.com"⟩], none⟩, ev) :=
  ⟨⟨rfl, by decide⟩,
    (validateDNS01_succeeds_iff (fun _ => false) mockVA ⟨identifier.DNS, lit "good-dns01.com"⟩
      (lit "LoqXcYV8q5ONbJQxbmR7SCTNo3tiAXDfowyjxAjEuX0.9jg46WB3rR_AHD-EBXdN7cBkH1WOu0tA3M9fm21mqTI")
      [lit "LPsIwTo7o8BoG0-vjCyGQGBWSVIPxI-i_X336eUOQZo"] rfl (by decide)).2 (by decide)⟩

/-- Claim C2: for an identifier whose type is not DNS, whatever the challenge
and the resolver, `validateDNS01` returns no validation records and a problem
of kind `Malformed`, and the run contains no resolver call. -/
theorem validateDNS01_rejects_non_dns (tbl : Nat → Bool) (va : ValidationAuthorityImpl)
    (ident : ACMEIdentifier) (challenge : Challenge) (hT : ident.Typ ≠ identifier.DNS) :
    ∃ ev, validateDNS01 tbl va ident challenge
        = .ok (⟨none, some ⟨.Malformed, lit "Identifier type for DNS was not itself DNS"⟩⟩, ev)
      ∧ (∀ h, Event.LookupTXT h ∉ ev) ∧ (∀ h, Event.LookupHost h ∉ ev) := by
  refine ⟨_, validateDNS01_notDNS tbl va ident challenge hT, ?_, ?_⟩ <;>
  · intro h hmem
    simp at hmem

/-- Claim C2 at an identifier of type `ip` and the mock resolver. -/
theorem validateDNS01_rejects_non_dns_witness :
    lit "ip" ≠ identifier.DNS
    ∧ ∃ ev, validateDNS01 (fun _ => false) mockVA ⟨lit "ip", lit "servfail.com"⟩ ⟨lit "k"⟩
        = .ok (⟨none, some ⟨.Malformed, lit "Identifier type for DNS was not itself DNS"⟩⟩, ev)
      ∧ (∀ h, Event.LookupTXT h ∉ ev) ∧ (∀ h, Event.LookupHost h ∉ ev) :=
  ⟨by decide,
    validateDNS01_rejects_non_dns (fun _ => false) mockVA ⟨lit "ip", lit "servfail.com"⟩
      ⟨lit "k"⟩ (by decide)⟩

/-- Claim C3: for every identifier, challenge and resolver, `validateDNS01`
returns, and what it returns is exactly one of a non-nil validation-record
list and a non-nil problem: never both, never neither. -/
theorem validateDNS01_exactly_one (tbl : Nat → Bool) (va : ValidationAuthorityImpl)
    (ident : ACMEIdentifier) (challenge : Challenge) :
    ∃ r ev, validateDNS01 tbl va ident challenge = .ok (r, ev)
      ∧ ((r.records ≠ none ∧ r.prob = none) ∨ (r.records = none ∧ r.prob ≠ none)) := by
  by_cases hT : ident.Typ = identifier.DNS
  · cases hr : va.dnsClient.LookupTXT (core.DNSPrefix ++ lit "." ++ ident.Value) with
    | mk txts err =>
      cases err with
      | some e =>
        exact ⟨_, _, validateDNS01_lookupError tbl va ident challenge e hT (by rw [hr]),
          Or.inr ⟨rfl, by simp⟩⟩
      | none =>
        by_cases hM : base64.RawURLEncodeToString (sha256.Sum challenge.ProvidedKeyAuthorization)
            ∈ txts
        · exact ⟨_, _, validateDNS01_match tbl va ident challenge txts hT hr hM,
            Or.inl ⟨by simp, rfl⟩⟩
        · cases txts with
          | nil =>
            exact ⟨_, _, validateDNS01_empty tbl va ident challenge hT hr, Or.inr ⟨rfl, by simp⟩⟩
          | cons first rest =>
            exact ⟨_, _, validateDNS01_noMatch tbl va ident challenge first rest hT hr hM,
              Or.inr ⟨rfl, by simp⟩⟩
  · exact ⟨_, _, validateDNS01_notDNS tbl va ident challenge hT, Or.inr ⟨rfl, by simp⟩⟩

/-- Claim C4: for an identifier of type DNS and a TXT lookup that returns a
non-nil error `e`, whatever records come with it and whatever kind of error
`e` is, `validateDNS01` returns no validation records and a problem of kind
`DNS` whose message is exactly the string form of `e`. -/
theorem validateDNS01_lookup_failure (tbl : Nat → Bool) (va : ValidationAuthorityImpl)
    (ident : ACMEIdentifier) (challenge : Challenge) (txts : List GoString) (e : GoError)
    (hT : ident.Typ = identifier.DNS)
    (hL : va.dnsClient.LookupTXT (core.DNSPrefix ++ lit "." ++ ident.Value) = (txts, some e)) :
    ∃ ev, validateDNS01 tbl va ident challenge = .ok (⟨none, some ⟨.DNS, e.Error⟩⟩, ev) :=
  ⟨_, validateDNS01_lookupError tbl va ident challenge e hT (by rw [hL])⟩

/-- Claim C4 at the mock's `servfail.com`, whose lookup fails with the plain
error `SERVFAIL`. -/
theorem validateDNS01_lookup_failure_witness :
    (identifier.DNS = identifier.DNS
      ∧ mockVA.dnsClient.LookupTXT (core.DNSPrefix ++ lit "." ++ lit "servfail.com")
        = ([], some (.plain (.New (lit "SERVFAIL")))))
    ∧ ∃ ev, validateDNS01 (fun _ => false) mockVA ⟨identifier.DNS, lit "servfail.com"⟩ ⟨lit "k"⟩
        = .ok (⟨none, some ⟨.DNS, (GoError.plain (.New (lit "SERVFAIL"))).Error⟩⟩, ev) :=
  ⟨⟨rfl, by decide⟩,
    validateDNS01_lookup_failure (fun _ => false) mockVA ⟨identifier.DNS, lit "servfail.com"⟩
      ⟨lit "k"⟩ [] (.plain (.New (lit "SERVFAIL"))) rfl (by decide)⟩

/-! ## The expected digest -/

/-- A SHA-256 hash has 32 bytes. -/
theorem sha256.Sum_length (msg : GoString) : (sha256.Sum msg).length = 32 := by
  simp [sha256.Sum, sha256.be32]

/-- The unpadded base64 encoding of `n` bytes has `(4 n + 2) / 3` characters. -/
theorem base64.RawURLEncodeToString_length (s : GoString) :
    (base64.RawURLEncodeToString s).length = (4 * s.length + 2) / 3 := by
  induction s using base64.RawURLEncodeToString.induct with
  | case1 a b c rest ih =>
    simp only [base64.RawURLEncodeToString, List.length_cons, ih]
    omega
  | case2 a b => simp [base64.RawURLEncodeToString]
  | case3 a => simp [base64.RawURLEncodeToString]
  | case4 => simp [base64.RawURLEncodeToString]

/-- The expected digest `base64url_nopad(SHA-256(k))` has 43 characters. -/
theorem digest_length (k : GoString) :
    (base64.RawURLEncodeToString (sha256.Sum k)).length = 43 := by
  rw [base64.RawURLEncodeToString_length, sha256.Sum_length]

/-- A record list without a record of 43 bytes holds no digest. -/
theorem digest_not_mem (k : GoString) (txts : List GoString)
    (h : ∀ t ∈ txts, t.length ≠ 43) :
    base64.RawURLEncodeToString (sha256.Sum k) ∉ txts :=
  fun hmem => h _ hmem (digest_length k)

/-! ## The two `Unauthorized` messages -/

/-- The no-record message written with the name spelled out. -/
theorem noRecord_message (d : GoString) :
    lit "No TXT record found at " ++ (core.DNSPrefix ++ lit "." ++ d)
      = lit "No TXT record found at _acme-challenge." ++ d := by
  have e : lit "No TXT record found at " ++ (core.DNSPrefix ++ lit ".")
      = lit "No TXT record found at _acme-challenge." := by decide
  rw [← e]
  simp only [List.append_assoc]

/-- Claim C5: for an identifier of type DNS with value `d`, a TXT lookup that
succeeds with zero records makes `validateDNS01` return a problem of kind
`Unauthorized` with message `"No TXT record found at _acme-challenge." + d`,
and for the same `d` every non-empty record list without a matching record
gives an `Unauthorized` problem with a different message. -/
theorem validateDNS01_no_record_message (tbl : Nat → Bool)
    (va va' : ValidationAuthorityImpl) (ident : ACMEIdentifier) (challenge : Challenge)
    (txts : List GoString) (hT : ident.Typ = identifier.DNS)
    (hL : va.dnsClient.LookupTXT (core.DNSPrefix ++ lit "." ++ ident.Value) = ([], none))
    (hL' : va'.dnsClient.LookupTXT (core.DNSPrefix ++ lit "." ++ ident.Value) = (txts, none))
    (hne : txts ≠ [])
    (hM : base64.RawURLEncodeToString (sha256.Sum challenge.ProvidedKeyAuthorization) ∉ txts) :
    (∃ ev, validateDNS01 tbl va ident challenge
        = .ok (⟨none, some ⟨.Unauthorized,
            lit "No TXT record found at _acme-challenge." ++ ident.Value⟩⟩, ev))
    ∧ ∃ msg ev, validateDNS01 tbl va' ident challenge
          = .ok (⟨none, some ⟨.Unauthorized, msg⟩⟩, ev)
        ∧ msg ≠ lit "No TXT record found at _acme-challenge." ++ ident.Value := by
  constructor
  · refine ⟨[.LookupTXT (core.DNSPrefix ++ lit "." ++ ident.Value)], ?_⟩
    rw [validateDNS01_empty tbl va ident challenge hT hL, noRecord_message]
    rfl
  · cases txts with
    | nil => exact absurd rfl hne
    | cons first rest =>
      refine ⟨_, _, validateDNS01_noMatch tbl va' ident challenge first rest hT hL' hM, ?_⟩
      intro h
      have h1 := congrArg List.head? h
      simp only [List.append_assoc] at h1
      have hI : ∀ X : GoString, (lit "Incorrect TXT record " ++ X).head? = some 73 :=
        fun _ => rfl
      have hN : ∀ X : GoString,
          (lit "No TXT record found at _acme-challenge." ++ X).head? = some 78 :=
        fun _ => rfl
      rw [hI, hN] at h1
      exact absurd h1 (by decide)

/-- Claim C5 at `empty-txts.com`: the mock resolver, which has no record for
it, against a resolver that answers with the single record `a`. -/
theorem validateDNS01_no_record_message_witness :
    (identifier.DNS = identifier.DNS
      ∧ mockVA.dnsClient.LookupTXT (core.DNSPrefix ++ lit "." ++ lit "empty-txts.com")
        = ([], none)
      ∧ (constTXT [lit "a"]).dnsClient.LookupTXT
          (core.DNSPrefix ++ lit "." ++ lit "empty-txts.com") = ([lit "a"], none)
      ∧ [lit "a"] ≠ []
      ∧ base64.RawURLEncodeToString (sha256.Sum (lit "k")) ∉ [lit "a"])
    ∧ (∃ ev, validateDNS01 (fun _ => false) mockVA ⟨identifier.DNS, lit "empty-txts.com"⟩
          ⟨lit "k"⟩
        = .ok (⟨none, some ⟨.Unauthorized,
            lit "No TXT record found at _acme-challenge." ++ lit "empty-txts.com"⟩⟩, ev))
    ∧ ∃ msg ev, validateDNS01 (fun _ => false) (constTXT [lit "a"])
            ⟨identifier.DNS, lit "empty-txts.com"⟩ ⟨lit "k"⟩
          = .ok (⟨none, some ⟨.Unauthorized, msg⟩⟩, ev)
        ∧ msg ≠ lit "No TXT record found at _acme-challenge." ++ lit "empty-txts.com" :=
  ⟨⟨rfl, by decide, rfl, by decide, digest_not_mem _ _ (by decide)⟩,
    validateDNS01_no_record_message (fun _ => false) mockVA (constTXT [lit "a"])
      ⟨identifier.DNS, lit "empty-txts.com"⟩ ⟨lit "k"⟩ [lit "a"] rfl (by decide) rfl (by decide)
      (digest_not_mem _ _ (by decide))⟩

/-! ## Quoting and sanitising of plain ASCII text -/

/-- A byte whose value is taken modulo 256 is the byte itself. -/
theorem byte_val (b : Byte) : byte b.val = b :=
  Fin.ext (Nat.mod_eq_of_lt b.isLt)

/-- An ASCII string decodes byte by byte. -/
theorem utf8.decodeAll_ascii (s : GoString) :
    ∀ fuel, s.length ≤ fuel → (∀ b ∈ s, b.val < 0x80) →
      utf8.decodeAll fuel s = s.map (fun b => (b.val, 1, b)) := by
  induction s with
  | nil =>
    intro fuel _ _
    cases fuel <;> rfl
  | cons p0 rest ih =>
    intro fuel hf hs
    cases fuel with
    | zero => simp at hf
    | succ fuel =>
      have h0 : p0.val < 0x80 := hs p0 (List.mem_cons_self _ _)
      have hd : utf8.DecodeRune (p0 :: rest) = (p0.val, 1) := by
        simp only [utf8.DecodeRune]
        rw [if_pos h0]
      simp only [utf8.decodeAll, hd, List.drop_succ_cons, List.drop_zero, List.map_cons]
      rw [ih fuel (by simpa using hf) (fun b hb => hs b (List.mem_cons_of_mem _ hb))]

/-- An ASCII string is valid UTF-8. -/
theorem utf8.Valid_ascii (s : GoString) (hs : ∀ b ∈ s, b.val < 0x80) : utf8.Valid s = true := by
  unfold utf8.Valid
  rw [utf8.decodeAll_ascii s s.length (Nat.le_refl _) hs, List.all_eq_true]
  intro t ht
  rw [List.mem_map] at ht
  obtain ⟨b, hb, rfl⟩ := ht
  have hlt : b.val < 0x80 := hs b hb
  have hne : ¬ b.val = utf8.RuneError := by
    unfold utf8.RuneError
    omega
  simp [hne]

/-- Sanitising leaves an ASCII string as it is. -/
theorem replaceInvalidUTF8_ascii (s : GoString) (hs : ∀ b ∈ s, b.val < 0x80) :
    replaceInvalidUTF8 s = s := by
  unfold replaceInvalidUTF8
  rw [if_pos (utf8.Valid_ascii s hs)]

/-- A printable ASCII character other than the double quote and the
backslash stands for itself in a quoted string. -/
theorem strconv.quoteStep_plain (tbl : Nat → Bool) (b : Byte) (hb : plainASCII b = true) :
    strconv.quoteStep tbl (b.val, 1, b) = [b] := by
  simp only [plainASCII, Bool.and_eq_true, decide_eq_true_eq] at hb
  obtain ⟨⟨⟨h1, h2⟩, h3⟩, h4⟩ := hb
  have hne : ¬ b.val = utf8.RuneError := by
    unfold utf8.RuneError
    omega
  have hq : ¬ (b.val = 0x22 ∨ b.val = 0x5C) := by omega
  have hp : strconv.IsPrint tbl b.val = true := by
    unfold strconv.IsPrint
    rw [if_pos (by omega), if_pos ⟨h1, h2⟩]
  have he : encodeRune b.val = [b] := by
    unfold encodeRune
    rw [if_pos (by omega), byte_val]
  unfold strconv.quoteStep
  rw [if_neg (fun h => hne h.2)]
  unfold strconv.appendEscapedRune
  rw [if_neg hq, if_pos hp, he]

/-- Plain ASCII text is quoted by putting it between double quotes. -/
theorem strconv.Quote_plain (tbl : Nat → Bool) (s : GoString)
    (hs : ∀ b ∈ s, plainASCII b = true) :
    strconv.Quote tbl s = [byte 0x22] ++ s ++ [byte 0x22] := by
  have hascii : ∀ b ∈ s, b.val < 0x80 := by
    intro b hb
    have := hs b hb
    simp only [plainASCII, Bool.and_eq_true, decide_eq_true_eq] at this
    omega
  unfold strconv.Quote
  rw [utf8.decodeAll_ascii s s.length (Nat.le_refl _) hascii]
  congr 2
  clear hascii
  induction s with
  | nil => rfl
  | cons b rest ih =>
    rw [List.map_cons, List.flatMap_cons, strconv.quoteStep_plain tbl b (hs b (List.mem_cons_self _ _)),
      ih (fun c hc => hs c (List.mem_cons_of_mem _ hc))]
    rfl

/-! ## The wrong-record message -/

/-- The text of the first record that goes into the message. -/
theorem shown_eq (first : GoString) :
    (if first.length > 100 then first.take 100 ++ lit "..." else first)
      = (if first.length ≤ 100 then first else first.take 100 ++ lit "...") := by
  by_cases h : first.length ≤ 100
  · rw [if_pos h, if_neg (by omega)]
  · rw [if_neg h, if_pos (by omega)]

/-- Claim C6, amended: for an identifier of type DNS and a non-empty TXT
record list without a matching record, `validateDNS01` fails with a problem
of kind `Unauthorized` whose message includes the first record (whole when at
most 100 bytes long, otherwise its first 100 bytes followed by `...`) in the
quoted and sanitised form that `%q` prints of it; when the first 100 bytes are
printable ASCII without double quote and backslash, the message includes that
text verbatim. -/
theorem validateDNS01_wrong_record_shown (tbl : Nat → Bool) (va : ValidationAuthorityImpl)
    (ident : ACMEIdentifier) (challenge : Challenge) (first : GoString) (rest : List GoString)
    (hT : ident.Typ = identifier.DNS)
    (hL : va.dnsClient.LookupTXT (core.DNSPrefix ++ lit "." ++ ident.Value)
      = (first :: rest, none))
    (hM : base64.RawURLEncodeToString (sha256.Sum challenge.ProvidedKeyAuthorization)
      ∉ first :: rest) :
    ∃ msg ev, validateDNS01 tbl va ident challenge = .ok (⟨none, some ⟨.Unauthorized, msg⟩⟩, ev)
      ∧ strconv.Quote tbl (replaceInvalidUTF8
          (if first.length ≤ 100 then first else first.take 100 ++ lit "...")) <:+: msg
      ∧ ((∀ b ∈ first.take 100, plainASCII b = true) →
          (if first.length ≤ 100 then first else first.take 100 ++ lit "...") <:+: msg) := by
  have hq : ∀ (A Q S F D : GoString), Q <:+: A ++ Q ++ S ++ F ++ D :=
    fun A Q S F D => ⟨A, S ++ F ++ D, by simp only [List.append_assoc]⟩
  refine ⟨_, _, validateDNS01_noMatch tbl va ident challenge first rest hT hL hM, ?_, ?_⟩
  · rw [shown_eq]
    exact hq _ _ _ _ _
  · intro hp
    rw [shown_eq]
    refine List.IsInfix.trans ?_ (hq _ _ _ _ _)
    have hplain : ∀ b ∈ (if first.length ≤ 100 then first else first.take 100 ++ lit "..."),
        plainASCII b = true := by
      by_cases h : first.length ≤ 100
      · rw [if_pos h]
        intro b hb
        exact hp b (by rw [List.take_of_length_le h]; exact hb)
      · rw [if_neg h]
        intro b hb
        rcases List.mem_append.1 hb with hb | hb
        · exact hp b hb
        · have e : lit "..." = [(46 : Byte), 46, 46] := by decide
          rw [e] at hb
          have hb' : b = 46 := by simpa using hb
          rw [hb']
          decide
    have hascii : ∀ b ∈ (if first.length ≤ 100 then first else first.take 100 ++ lit "..."),
        b.val < 0x80 := by
      intro b hb
      have := hplain b hb
      simp only [plainASCII, Bool.and_eq_true, decide_eq_true_eq] at this
      omega
    rw [replaceInvalidUTF8_ascii _ hascii, strconv.Quote_plain tbl _ hplain]
    exact ⟨[byte 0x22], [byte 0x22], rfl⟩

set_option maxRecDepth 1000000 in
set_option maxHeartbeats 4000000 in
/-- Claim C6 at the mock's `long-dns01.com`, whose record is longer than 100
bytes. -/
theorem validateDNS01_wrong_record_shown_witness :
    (identifier.DNS = identifier.DNS
      ∧ mockVA.dnsClient.LookupTXT (core.DNSPrefix ++ lit "." ++ lit "long-dns01.com")
        = ([lit "aaaaaaaaaaaaaaaaaaaaaaaaaaaaaaaaaaaaaaaaaaaaaaaaaaaaaaaaaaaaaaaaaaaaaaaaaaaaaaaaaaaaaaaaaaaaaaaaaaaaaaaaaaaaaaaaaaaaaaaaaaaaaaaaaaaaaaaaaaaaaaaaaaaaaaaaaaaaaaaaaaaaaaaaaaaaaaaaaaaaaaaaaaaaaaaaaaaaaaaaa"], none)
      ∧ base64.RawURLEncodeToString (sha256.Sum (lit "k"))
        ∉ [lit "aaaaaaaaaaaaaaaaaaaaaaaaaaaaaaaaaaaaaaaaaaaaaaaaaaaaaaaaaaaaaaaaaaaaaaaaaaaaaaaaaaaaaaaaaaaaaaaaaaaaaaaaaaaaaaaaaaaaaaaaaaaaaaaaaaaaaaaaaaaaaaaaaaaaaaaaaaaaaaaaaaaaaaaaaaaaaaaaaaaaaaaaaaaaaaaaaaaaaaaaa"])
    ∧ ∃ msg ev, validateDNS01 (fun _ => false) mockVA ⟨identifier.DNS, lit "long-dns01.com"⟩
          ⟨lit "k"⟩ = .ok (⟨none, some ⟨.Unauthorized, msg⟩⟩, ev)
        ∧ lit "aaaaaaaaaaaaaaaaaaaaaaaaaaaaaaaaaaaaaaaaaaaaaaaaaaaaaaaaaaaaaaaaaaaaaaaaaaaaaaaaaaaaaaaaaaaaaaaaaaaa..."
          <:+: msg := by
  have hM : base64.RawURLEncodeToString (sha256.Sum (lit "k"))
      ∉ [lit "aaaaaaaaaaaaaaaaaaaaaaaaaaaaaaaaaaaaaaaaaaaaaaaaaaaaaaaaaaaaaaaaaaaaaaaaaaaaaaaaaaaaaaaaaaaaaaaaaaaaaaaaaaaaaaaaaaaaaaaaaaaaaaaaaaaaaaaaaaaaaaaaaaaaaaaaaaaaaaaaaaaaaaaaaaaaaaaaaaaaaaaaaaaaaaaaaaaaaaaaa"] :=
    digest_not_mem _ _ (by decide)
  obtain ⟨msg, ev, h, _, hv⟩ :=
    validateDNS01_wrong_record_shown (fun _ => false) mockVA
      ⟨identifier.DNS, lit "long-dns01.com"⟩ ⟨lit "k"⟩ _ [] rfl (by decide) hM
  exact ⟨⟨rfl, by decide, hM⟩, msg, ev, h, hv (by decide)⟩

set_option maxRecDepth 1000000 in
/-- Claim C6 as stated fails: the record `a"b` is shorter than 100 bytes, yet
the message, which quotes it as `"a\"b"`, does not include it. -/
theorem validateDNS01_wrong_record_verbatim_counterexample :
    (identifier.DNS = identifier.DNS
      ∧ (constTXT [lit "a\"b"]).dnsClient.LookupTXT (core.DNSPrefix ++ lit "." ++ lit "x")
        = ([lit "a\"b"], none)
      ∧ base64.RawURLEncodeToString (sha256.Sum (lit "k")) ∉ [lit "a\"b"]
      ∧ (lit "a\"b").length ≤ 100)
    ∧ validateDNS01 (fun _ => false) (constTXT [lit "a\"b"]) ⟨identifier.DNS, lit "x"⟩ ⟨lit "k"⟩
      = .ok (⟨none, some ⟨.Unauthorized,
            lit "Incorrect TXT record \"a\\\"b\" found at _acme-challenge.x"⟩⟩,
          [.LookupTXT (lit "_acme-challenge.x")])
    ∧ ¬ (lit "a\"b" <:+: lit "Incorrect TXT record \"a\\\"b\" found at _acme-challenge.x") := by
  have hM : base64.RawURLEncodeToString (sha256.Sum (lit "k")) ∉ [lit "a\"b"] :=
    digest_not_mem _ _ (by decide)
  refine ⟨⟨rfl, rfl, hM, by decide⟩, ?_, by decide⟩
  rw [validateDNS01_noMatch (fun _ => false) (constTXT [lit "a\"b"]) ⟨identifier.DNS, lit "x"⟩
    ⟨lit "k"⟩ (lit "a\"b") [] rfl rfl hM]
  have e1 : (core.DNSPrefix ++ lit "." ++ lit "x") = lit "_acme-challenge.x" := by decide
  have e2 : probs.Unauthorized (lit "Incorrect TXT record "
      ++ strconv.Quote (fun _ => false) (replaceInvalidUTF8
          (if (lit "a\"b").length > 100 then (lit "a\"b").take 100 ++ lit "..." else lit "a\"b"))
      ++ (if ([] : List GoString).length ≥ 1 then
            lit " (and " ++ strconv.Itoa ([] : List GoString).length ++ lit " more)"
          else [])
      ++ lit " found at " ++ lit "_acme-challenge.x")
      = ⟨.Unauthorized, lit "Incorrect TXT record \"a\\\"b\" found at _acme-challenge.x"⟩ := by
    decide
  simp only [e1]
  rw [e2]

/-- The wrong-record message written with the name spelled out. -/
theorem wrongRecord_message (Q S d : GoString) :
    lit "Incorrect TXT record " ++ Q ++ S ++ lit " found at " ++ (core.DNSPrefix ++ lit "." ++ d)
      = lit "Incorrect TXT record " ++ Q ++ S ++ lit " found at _acme-challenge." ++ d := by
  have e : lit " found at " ++ (core.DNSPrefix ++ lit ".") = lit " found at _acme-challenge." := by
    decide
  rw [← e]
  simp only [List.append_assoc]

/-- Claim C7: for a list of `n >= 1` TXT records without a match, the
`Unauthorized` message of `validateDNS01` carries, between the quoted first
record and `" found at _acme-challenge.<domain>"`, a count suffix that is
exactly `" (and n-1 more)"` when `n >= 2` and is empty when `n = 1`. -/
theorem validateDNS01_count_suffix (tbl : Nat → Bool) (va : ValidationAuthorityImpl)
    (ident : ACMEIdentifier) (challenge : Challenge) (txts : List GoString) (first : GoString)
    (hT : ident.Typ = identifier.DNS)
    (hL : va.dnsClient.LookupTXT (core.DNSPrefix ++ lit "." ++ ident.Value) = (txts, none))
    (hF : txts.head? = some first)
    (hM : base64.RawURLEncodeToString (sha256.Sum challenge.ProvidedKeyAuthorization) ∉ txts) :
    ∃ ev, validateDNS01 tbl va ident challenge
      = .ok (⟨none, some ⟨.Unauthorized,
          lit "Incorrect TXT record "
            ++ strconv.Quote tbl (replaceInvalidUTF8
                (if first.length ≤ 100 then first else first.take 100 ++ lit "..."))
            ++ (if txts.length ≥ 2 then
                  lit " (and " ++ strconv.Itoa (txts.length - 1) ++ lit " more)"
                else [])
            ++ lit " found at _acme-challenge." ++ ident.Value⟩⟩, ev) := by
  cases txts with
  | nil => simp at hF
  | cons t rest =>
    have ht : t = first := by simpa using hF
    subst ht
    refine ⟨[.LookupTXT (core.DNSPrefix ++ lit "." ++ ident.Value)], ?_⟩
    rw [validateDNS01_noMatch tbl va ident challenge t rest hT hL hM, shown_eq,
      wrongRecord_message]
    have hs : (t :: rest).length - 1 = rest.length := by simp
    have hsuf : (if (t :: rest).length ≥ 2 then
          lit " (and " ++ strconv.Itoa ((t :: rest).length - 1) ++ lit " more)"
        else ([] : GoString))
        = (if rest.length ≥ 1 then lit " (and " ++ strconv.Itoa rest.length ++ lit " more)"
          else []) := by
      by_cases h : rest.length ≥ 1
      · rw [if_pos h, if_pos (by simp only [List.length_cons]; omega), hs]
      · rw [if_neg h, if_neg (by simp only [List.length_cons]; omega)]
    rw [hsuf]
    rfl

set_option maxRecDepth 1000000 in
set_option maxHeartbeats 4000000 in
/-- Claim C7 at the mock's `wrong-many-dns01.com`, with the five records
`a`, `b`, `c`, `d`, `e`, and at its `wrong-dns01.com`, with the single record
`a`: the first message holds `"a"` followed by ` (and 4 more)`, the second
holds `"a"` followed at once by ` found at`. -/
theorem validateDNS01_count_suffix_witness :
    ((identifier.DNS = identifier.DNS
      ∧ mockVA.dnsClient.LookupTXT (core.DNSPrefix ++ lit "." ++ lit "wrong-many-dns01.com")
        = ([lit "a", lit "b", lit "c", lit "d", lit "e"], none)
      ∧ [lit "a", lit "b", lit "c", lit "d", lit "e"].head? = some (lit "a")
      ∧ base64.RawURLEncodeToString (sha256.Sum (lit "k"))
        ∉ [lit "a", lit "b", lit "c", lit "d", lit "e"])
      ∧ ∃ ev, validateDNS01 (fun _ => false) mockVA ⟨identifier.DNS, lit "wrong-many-dns01.com"⟩
          ⟨lit "k"⟩
        = .ok (⟨none, some ⟨.Unauthorized, lit
          "Incorrect TXT record \"a\" (and 4 more) found at _acme-challenge.wrong-many-dns01.com"⟩⟩,
          ev))
    ∧ ((identifier.DNS = identifier.DNS
      ∧ mockVA.dnsClient.LookupTXT (core.DNSPrefix ++ lit "." ++ lit "wrong-dns01.com")
        = ([lit "a"], none)
      ∧ [lit "a"].head? = some (lit "a")
      ∧ base64.RawURLEncodeToString (sha256.Sum (lit "k")) ∉ [lit "a"])
      ∧ ∃ ev, validateDNS01 (fun _ => false) mockVA ⟨identifier.DNS, lit "wrong-dns01.com"⟩
          ⟨lit "k"⟩
        = .ok (⟨none, some ⟨.Unauthorized, lit
          "Incorrect TXT record \"a\" found at _acme-challenge.wrong-dns01.com"⟩⟩, ev)) := by
  have hM5 : base64.RawURLEncodeToString (sha256.Sum (lit "k"))
      ∉ [lit "a", lit "b", lit "c", lit "d", lit "e"] := digest_not_mem _ _ (by decide)
  have hM1 : base64.RawURLEncodeToString (sha256.Sum (lit "k")) ∉ [lit "a"] :=
    digest_not_mem _ _ (by decide)
  obtain ⟨ev5, h5⟩ := validateDNS01_count_suffix (fun _ => false) mockVA
    ⟨identifier.DNS, lit "wrong-many-dns01.com"⟩ ⟨lit "k"⟩
    [lit "a", lit "b", lit "c", lit "d", lit "e"] (lit "a") rfl (by decide) rfl hM5
  obtain ⟨ev1, h1⟩ := validateDNS01_count_suffix (fun _ => false) mockVA
    ⟨identifier.DNS, lit "wrong-dns01.com"⟩ ⟨lit "k"⟩ [lit "a"] (lit "a") rfl (by decide) rfl hM1
  have e5 : lit "Incorrect TXT record "
      ++ strconv.Quote (fun _ => false) (replaceInvalidUTF8
          (if (lit "a").length ≤ 100 then lit "a" else (lit "a").take 100 ++ lit "..."))
      ++ (if [lit "a", lit "b", lit "c", lit "d", lit "e"].length ≥ 2 then
            lit " (and "
              ++ strconv.Itoa ([lit "a", lit "b", lit "c", lit "d", lit "e"].length - 1)
              ++ lit " more)"
          else [])
      ++ lit " found at _acme-challenge." ++ lit "wrong-many-dns01.com"
      = lit "Incorrect TXT record \"a\" (and 4 more) found at _acme-challenge.wrong-many-dns01.com" := by
    decide
  have e1 : lit "Incorrect TXT record "
      ++ strconv.Quote (fun _ => false) (replaceInvalidUTF8
          (if (lit "a").length ≤ 100 then lit "a" else (lit "a").take 100 ++ lit "..."))
      ++ (if [lit "a"].length ≥ 2 then
            lit " (and " ++ strconv.Itoa ([lit "a"].length - 1) ++ lit " more)"
          else [])
      ++ lit " found at _acme-challenge." ++ lit "wrong-dns01.com"
      = lit "Incorrect TXT record \"a\" found at _acme-challenge.wrong-dns01.com" := by
    decide
  exact ⟨⟨⟨rfl, by decide, rfl, hM5⟩, ev5, by rw [← e5]; exact h5⟩,
    ⟨⟨rfl, by decide, rfl, hM1⟩, ev1, by rw [← e1]; exact h1⟩⟩

/-! ## The cost of the comparison -/

/-- Claim C8: when the TXT lookup of `validateDNS01` returns a record as long
as the expected digest, the run performs exactly as many byte comparisons as
the record has bytes; the number is the same for any other record of that
length, wherever the first mismatching byte lies and whether or not the
record matches: the comparison never stops early.  In a longer record list
every record the loop reaches costs its full length in the same way. -/
theorem validateDNS01_comparison_cost (tbl : Nat → Bool) (va va' : ValidationAuthorityImpl)
    (ident : ACMEIdentifier) (k t t' : GoString) (hT : ident.Typ = identifier.DNS)
    (hL : va.dnsClient.LookupTXT (core.DNSPrefix ++ lit "." ++ ident.Value) = ([t], none))
    (hL' : va'.dnsClient.LookupTXT (core.DNSPrefix ++ lit "." ++ ident.Value) = ([t'], none))
    (hlen : t.length = (base64.RawURLEncodeToString (sha256.Sum k)).length)
    (hlen' : t'.length = t.length) :
    (∃ r ev, validateDNS01.counted tbl va ident ⟨k⟩ = .ok ((r, ev), t.length)
      ∧ validateDNS01 tbl va ident ⟨k⟩ = .ok (r, ev))
    ∧ (∃ r' ev', validateDNS01.counted tbl va' ident ⟨k⟩ = .ok ((r', ev'), t.length)
      ∧ validateDNS01 tbl va' ident ⟨k⟩ = .ok (r', ev'))
    ∧ (∀ rest : List GoString,
        (validateDNS01.anyMatch (base64.RawURLEncodeToString (sha256.Sum k)) (t :: rest)).2
          = t.length + (if t = base64.RawURLEncodeToString (sha256.Sum k) then 0
              else (validateDNS01.anyMatch (base64.RawURLEncodeToString (sha256.Sum k))
                rest).2)) := by
  have one : ∀ (w : ValidationAuthorityImpl) (s : GoString),
      w.dnsClient.LookupTXT (core.DNSPrefix ++ lit "." ++ ident.Value) = ([s], none) →
      s.length = (base64.RawURLEncodeToString (sha256.Sum k)).length →
      ∃ r ev, validateDNS01.counted tbl w ident ⟨k⟩ = .ok ((r, ev), s.length)
        ∧ validateDNS01 tbl w ident ⟨k⟩ = .ok (r, ev) := by
    intro w s hw hs
    have hcost : (validateDNS01.anyMatch (base64.RawURLEncodeToString (sha256.Sum k)) [s]).2
        = s.length := by
      rw [validateDNS01.anyMatch_cost _ s [] hs]
      by_cases e : s = base64.RawURLEncodeToString (sha256.Sum k)
      · rw [if_pos e]
        rfl
      · rw [if_neg e]
        rfl
    by_cases hM : base64.RawURLEncodeToString (sha256.Sum k) ∈ [s]
    · refine ⟨_, _, ?_, validateDNS01_match tbl w ident ⟨k⟩ [s] hT hw hM⟩
      rw [validateDNS01.counted_match tbl w ident ⟨k⟩ [s] hT hw hM, hcost]
    · refine ⟨_, _, ?_, validateDNS01_noMatch tbl w ident ⟨k⟩ s [] hT hw hM⟩
      rw [validateDNS01.counted_noMatch tbl w ident ⟨k⟩ s [] hT hw hM, hcost]
  refine ⟨one va t hL hlen, ?_, fun rest => validateDNS01.anyMatch_cost _ t rest hlen⟩
  have h2 := one va' t' hL' (by rw [hlen', hlen])
  rw [hlen'] at h2
  exact h2

set_option maxRecDepth 1000000 in
set_option maxHeartbeats 4000000 in
/-- Claim C8 at the mock's `good-dns01.com`, whose record is the digest of
the test key authorization, against a resolver whose record differs from
that digest in the first byte: 43 byte comparisons in each run. -/
theorem validateDNS01_comparison_cost_witness :
    (identifier.DNS = identifier.DNS
      ∧ mockVA.dnsClient.LookupTXT (core.DNSPrefix ++ lit "." ++ lit "good-dns01.com")
        = ([lit "LPsIwTo7o8BoG0-vjCyGQGBWSVIPxI-i_X336eUOQZo"], none)
      ∧ (constTXT [lit "XPsIwTo7o8BoG0-vjCyGQGBWSVIPxI-i_X336eUOQZo"]).dnsClient.LookupTXT
          (core.DNSPrefix ++ lit "." ++ lit "good-dns01.com")
        = ([lit "XPsIwTo7o8BoG0-vjCyGQGBWSVIPxI-i_X336eUOQZo"], none)
      ∧ lit "LPsIwTo7o8BoG0-vjCyGQGBWSVIPxI-i_X336eUOQZo"
        = base64.RawURLEncodeToString (sha256.Sum
          (lit "LoqXcYV8q5ONbJQxbmR7SCTNo3tiAXDfowyjxAjEuX0.9jg46WB3rR_AHD-EBXdN7cBkH1WOu0tA3M9fm21mqTI"))
      ∧ (lit "XPsIwTo7o8BoG0-vjCyGQGBWSVIPxI-i_X336eUOQZo").length
        = (lit "LPsIwTo7o8BoG0-vjCyGQGBWSVIPxI-i_X336eUOQZo").length)
    ∧ (∃ r ev, validateDNS01.counted (fun _ => false) mockVA
          ⟨identifier.DNS, lit "good-dns01.com"⟩
          ⟨lit "LoqXcYV8q5ONbJQxbmR7SCTNo3tiAXDfowyjxAjEuX0.9jg46WB3rR_AHD-EBXdN7cBkH1WOu0tA3M9fm21mqTI"⟩
        = .ok ((r, ev), 43))
    ∧ (∃ r' ev', validateDNS01.counted (fun _ => false)
          (constTXT [lit "XPsIwTo7o8BoG0-vjCyGQGBWSVIPxI-i_X336eUOQZo"])
          ⟨identifier.DNS, lit "good-dns01.com"⟩
          ⟨lit "LoqXcYV8q5ONbJQxbmR7SCTNo3tiAXDfowyjxAjEuX0.9jg46WB3rR_AHD-EBXdN7cBkH1WOu0tA3M9fm21mqTI"⟩
        = .ok ((r', ev'), 43)) := by
  have hd : lit "LPsIwTo7o8BoG0-vjCyGQGBWSVIPxI-i_X336eUOQZo"
      = base64.RawURLEncodeToString (sha256.Sum
        (lit "LoqXcYV8q5ONbJQxbmR7SCTNo3tiAXDfowyjxAjEuX0.9jg46WB3rR_AHD-EBXdN7cBkH1WOu0tA3M9fm21mqTI")) := by
    decide
  have h43 : (lit "LPsIwTo7o8BoG0-vjCyGQGBWSVIPxI-i_X336eUOQZo").length = 43 := by decide
  obtain ⟨⟨r, ev, h1, _⟩, ⟨r', ev', h2, _⟩, _⟩ :=
    validateDNS01_comparison_cost (fun _ => false) mockVA
      (constTXT [lit "XPsIwTo7o8BoG0-vjCyGQGBWSVIPxI-i_X336eUOQZo"])
      ⟨identifier.DNS, lit "good-dns01.com"⟩
      (lit "LoqXcYV8q5ONbJQxbmR7SCTNo3tiAXDfowyjxAjEuX0.9jg46WB3rR_AHD-EBXdN7cBkH1WOu0tA3M9fm21mqTI")
      (lit "LPsIwTo7o8BoG0-vjCyGQGBWSVIPxI-i_X336eUOQZo")
      (lit "XPsIwTo7o8BoG0-vjCyGQGBWSVIPxI-i_X336eUOQZo") rfl (by decide) rfl
      (by rw [← hd]) (by decide)
  rw [h43] at h1 h2
  exact ⟨⟨rfl, by decide, rfl, hd, by decide⟩, ⟨r, ev, h1⟩, ⟨r', ev', h2⟩⟩

/-! ## Address splitting -/

/-- The loop of `availableAddresses` appends to the slices built so far the
addresses with a 4-byte form and the remaining ones, in their order. -/
theorem availableAddresses.loop_eq (l : List IP) :
    ∀ v4 v6 : List IP, availableAddresses.loop l v4 v6
      = (v4 ++ l.filter (fun addr => addr.To4.isSome),
         v6 ++ l.filter (fun addr => addr.To4.isNone)) := by
  induction l with
  | nil =>
    intro v4 v6
    simp [availableAddresses.loop]
  | cons addr rest ih =>
    intro v4 v6
    cases h : addr.To4 with
    | none => simp [availableAddresses.loop, h, ih]
    | some ip => simp [availableAddresses.loop, h, ih]

/-- The two results of `availableAddresses` are the two filters of the
input. -/
theorem availableAddresses_eq (l : List IP) :
    availableAddresses l
      = (l.filter (fun addr => addr.To4.isSome), l.filter (fun addr => addr.To4.isNone)) := by
  unfold availableAddresses
  rw [availableAddresses.loop_eq]
  rfl

/-- Claim C9: for every address list, `availableAddresses` returns as `v4`
the subsequence of the input addresses that have a 4-byte representation
(`To4` is non-nil, which holds for the 4-byte form and for the 16-byte
IPv4-mapped form) and as `v6` the subsequence of all other addresses, each in
the relative order of the input. -/
theorem availableAddresses_partition (allAddrs : List IP) :
    (availableAddresses allAddrs).1 = allAddrs.filter (fun addr => addr.To4.isSome)
    ∧ (availableAddresses allAddrs).2 = allAddrs.filter (fun addr => addr.To4.isNone)
    ∧ List.Sublist (availableAddresses allAddrs).1 allAddrs
    ∧ List.Sublist (availableAddresses allAddrs).2 allAddrs
    ∧ (∀ a b c d : Byte, IP.To4 [a, b, c, d] = some [a, b, c, d])
    ∧ (∀ a b c d : Byte,
        IP.To4 [0, 0, 0, 0, 0, 0, 0, 0, 0, 0, 0xff, 0xff, a, b, c, d] = some [a, b, c, d])
    ∧ availableAddresses [ipv6Loopback, ipv4Loopback] = ([ipv4Loopback], [ipv6Loopback]) := by
  rw [availableAddresses_eq]
  refine ⟨rfl, rfl, List.filter_sublist _, List.filter_sublist _, ?_, ?_, by decide⟩
  · intro a b c d
    rfl
  · intro a b c d
    rfl

/-- Claim C10: for every address list, the two outputs of
`availableAddresses` are disjoint, every input address occurs in exactly one
of them and with its multiplicity, so that `len(v4) + len(v6) = len(input)`,
and the empty input yields two empty outputs. -/
theorem availableAddresses_disjoint_cover (allAddrs : List IP) :
    (∀ a, ¬ (a ∈ (availableAddresses allAddrs).1 ∧ a ∈ (availableAddresses allAddrs).2))
    ∧ (∀ a ∈ allAddrs,
        a ∈ (availableAddresses allAddrs).1 ∨ a ∈ (availableAddresses allAddrs).2)
    ∧ (∀ a, (availableAddresses allAddrs).1.countP (fun x => decide (x = a))
          + (availableAddresses allAddrs).2.countP (fun x => decide (x = a))
        = allAddrs.countP (fun x => decide (x = a)))
    ∧ (availableAddresses allAddrs).1.length + (availableAddresses allAddrs).2.length
        = allAddrs.length
    ∧ availableAddresses [] = ([], []) := by
  have hperm : List.Perm ((availableAddresses allAddrs).1 ++ (availableAddresses allAddrs).2)
      allAddrs := by
    rw [availableAddresses_eq]
    have hf : (fun addr : IP => addr.To4.isNone) = (fun addr => !addr.To4.isSome) := by
      funext addr
      cases addr.To4 <;> rfl
    simp only [hf]
    exact List.filter_append_perm _ _
  refine ⟨?_, ?_, ?_, ?_, rfl⟩
  · intro a ha
    rw [availableAddresses_eq] at ha
    simp only [List.mem_filter] at ha
    obtain ⟨⟨_, h1⟩, ⟨_, h2⟩⟩ := ha
    cases h : a.To4 <;> simp [h] at h1 h2
  · intro a ha
    exact List.mem_append.1 ((hperm.mem_iff).2 ha)
  · intro a
    rw [← List.countP_append]
    exact hperm.countP_eq _
  · rw [← List.length_append]
    exact hperm.length_eq

/-! ## Address resolution -/

/-- A failed host lookup gives a DNS-kind error carrying the string of the
lookup error. -/
theorem getAddrs_lookupError (va : ValidationAuthorityImpl) (hostname : GoString)
    (err : GoError) (hL : (va.dnsClient.LookupHost hostname).2 = some err) :
    getAddrs va hostname
      = ((none, some ⟨.DNS, err.Error⟩),
          .LookupHost hostname :: logDNSError hostname err) := by
  unfold getAddrs
  simp only [hL]
  rfl

/-- A successful host lookup without addresses gives the no-address error. -/
theorem getAddrs_empty (va : ValidationAuthorityImpl) (hostname : GoString)
    (hL : va.dnsClient.LookupHost hostname = ([], none)) :
    getAddrs va hostname
      = ((none, some ⟨.DNS, lit "No valid IP addresses found for " ++ hostname⟩),
          [.LookupHost hostname]) := by
  unfold getAddrs
  simp only [hL, List.length_nil, if_true]
  rfl

/-- A successful host lookup with addresses returns them. -/
theorem getAddrs_found (va : ValidationAuthorityImpl) (hostname : GoString) (addrs : List IP)
    (hL : va.dnsClient.LookupHost hostname = (addrs, none)) (hne : addrs ≠ []) :
    getAddrs va hostname
      = ((some addrs, none),
          [.LookupHost hostname,
           .Debugf (lit "Resolved addresses for %s: %s") [.str hostname, .addrs addrs]]) := by
  have hlen : ¬ addrs.length = 0 := fun h => hne (List.length_eq_zero.1 h)
  unfold getAddrs
  simp only [hL, hlen, if_false]

/-- Claim C11: for a hostname `h` and a resolver outcome `(addrs, err)` of
`LookupHost`, `getAddrs` returns `(addrs, nil)`, the address list unchanged,
exactly when `err` is nil and `addrs` is non-empty; when `err` is non-nil it
returns a nil list and a DNS-kind error whose message is the string form of
`err`, whatever `addrs` is; when `err` is nil and `addrs` is empty it returns
a nil list and a DNS-kind error with message
`"No valid IP addresses found for " + h`. -/
theorem getAddrs_outcomes (va : ValidationAuthorityImpl) (h : GoString) (addrs : List IP)
    (err : Option GoError) (hL : va.dnsClient.LookupHost h = (addrs, err)) :
    ((getAddrs va h).1 = (some addrs, none) ↔ err = none ∧ addrs ≠ [])
    ∧ (∀ e, err = some e → (getAddrs va h).1 = (none, some ⟨.DNS, e.Error⟩))
    ∧ (err = none → addrs = [] →
        (getAddrs va h).1
          = (none, some ⟨.DNS, lit "No valid IP addresses found for " ++ h⟩)) := by
  have hE : ∀ e, err = some e → (getAddrs va h).1 = (none, some ⟨.DNS, e.Error⟩) := by
    intro e he
    rw [getAddrs_lookupError va h e (by rw [hL, he])]
  have hZ : err = none → addrs = [] →
      (getAddrs va h).1 = (none, some ⟨.DNS, lit "No valid IP addresses found for " ++ h⟩) := by
    intro he ha
    rw [getAddrs_empty va h (by rw [hL, he, ha])]
  refine ⟨⟨?_, ?_⟩, hE, hZ⟩
  · intro hr
    cases err with
    | some e =>
      rw [hE e rfl] at hr
      exact absurd (congrArg Prod.fst hr) (by simp)
    | none =>
      refine ⟨rfl, ?_⟩
      intro ha
      rw [hZ rfl ha] at hr
      exact absurd (congrArg Prod.fst hr) (by simp)
  · rintro ⟨he, hne⟩
    rw [getAddrs_found va h addrs (by rw [hL, he]) hne]

/-- Claim C11 at the mock's dual-homed host `ipv4.and.ipv6.localhost`: the
two addresses come back in the resolver's order. -/
theorem getAddrs_outcomes_witness :
    mockVA.dnsClient.LookupHost (lit "ipv4.and.ipv6.localhost")
      = ([ipv6Loopback, ipv4Loopback], none)
    ∧ (getAddrs mockVA (lit "ipv4.and.ipv6.localhost")).1
      = (some [ipv6Loopback, ipv4Loopback], none) :=
  ⟨by decide,
    ((getAddrs_outcomes mockVA (lit "ipv4.and.ipv6.localhost") [ipv6Loopback, ipv4Loopback] none
      (by decide)).1).2 ⟨rfl, by decide⟩⟩

/-! ## Logging of resolution errors -/

/-- Claim C12: for every identifier and every error `e`, `logDNSError` writes
exactly one error-level log entry, whose operands are the identifier, `e`
and the underlying cause (printed by `%q`, `%s` and `%s`, that is the
identifier quoted and the two errors by their string forms), if `e` is a
`DNSError` whose underlying cause is non-nil and is neither
`context.Canceled` nor `context.DeadlineExceeded`; it writes nothing in every
other case: `e` is not a `DNSError`, its underlying cause is nil, or the
cause is one of the two context signals. -/
theorem logDNSError_cases (ident : GoString) (e : GoError) :
    (∀ d u, e = .dns d → d.underlying = some u → u ≠ .Canceled → u ≠ .DeadlineExceeded →
        logDNSError ident e
          = [.Errf (lit "For identifier %q: err=[%s], underlying=[%s]")
              [.str ident, .err e, .cause u]])
    ∧ ((∀ p, e = .plain p → logDNSError ident e = [])
      ∧ (∀ d, e = .dns d → d.underlying = none → logDNSError ident e = [])
      ∧ (∀ d, e = .dns d → d.underlying = some .Canceled → logDNSError ident e = [])
      ∧ (∀ d, e = .dns d → d.underlying = some .DeadlineExceeded → logDNSError ident e = []))
    ∧ (logDNSError ident e ≠ [] ↔
        ∃ d u, e = .dns d ∧ d.underlying = some u ∧ u ≠ .Canceled ∧ u ≠ .DeadlineExceeded) := by
  have h1 : ∀ d u, e = .dns d → d.underlying = some u → u ≠ .Canceled →
      u ≠ .DeadlineExceeded →
      logDNSError ident e
        = [.Errf (lit "For identifier %q: err=[%s], underlying=[%s]")
            [.str ident, .err e, .cause u]] := by
    intro d u he hu hc hd
    subst he
    simp only [logDNSError, hu]
    rw [if_pos ⟨hc, hd⟩]
  have h2 : ∀ p, e = .plain p → logDNSError ident e = [] := by
    intro p he
    subst he
    rfl
  have h3 : ∀ d, e = .dns d → d.underlying = none → logDNSError ident e = [] := by
    intro d he hu
    subst he
    simp only [logDNSError, hu]
  have h4 : ∀ d, e = .dns d → d.underlying = some .Canceled → logDNSError ident e = [] := by
    intro d he hu
    subst he
    simp [logDNSError, hu]
  have h5 : ∀ d, e = .dns d → d.underlying = some .DeadlineExceeded →
      logDNSError ident e = [] := by
    intro d he hu
    subst he
    simp [logDNSError, hu]
  refine ⟨h1, ⟨h2, h3, h4, h5⟩, ⟨?_, ?_⟩⟩
  · intro hne
    cases e with
    | plain p => exact absurd (h2 p rfl) hne
    | dns d =>
      cases hu : d.underlying with
      | none => exact absurd (h3 d rfl hu) hne
      | some u =>
        refine ⟨d, u, rfl, hu, ?_, ?_⟩
        · intro hc
          exact absurd (h4 d rfl (by rw [hu, hc])) hne
        · intro hd
          exact absurd (h5 d rfl (by rw [hu, hd])) hne
  · rintro ⟨d, u, he, hu, hc, hd⟩
    rw [h1 d u he hu hc hd]
    simp

/-- Claim C17, amended: for a hostname `h` and a lookup error `e` whose
string form is not itself `"No valid IP addresses found for " + h`, the
message of the DNS-kind error that `getAddrs` returns on lookup failure, which
is the string form of `e`, differs from the message it returns for `h` when
the lookup succeeds with zero addresses. -/
theorem getAddrs_messages_differ (va va' : ValidationAuthorityImpl) (h : GoString)
    (addrs : List IP) (e : GoError)
    (hL : va.dnsClient.LookupHost h = (addrs, some e))
    (hL' : va'.dnsClient.LookupHost h = ([], none))
    (hne : e.Error ≠ lit "No valid IP addresses found for " ++ h) :
    ∃ m m', (getAddrs va h).1 = (none, some ⟨.DNS, m⟩)
      ∧ (getAddrs va' h).1 = (none, some ⟨.DNS, m'⟩)
      ∧ m = e.Error ∧ m' = lit "No valid IP addresses found for " ++ h ∧ m ≠ m' := by
  refine ⟨e.Error, lit "No valid IP addresses found for " ++ h, ?_, ?_, rfl, rfl, hne⟩
  · rw [getAddrs_lookupError va h e (by rw [hL])]
  · rw [getAddrs_empty va' h hL']

/-- Claim C17 at the mock's `always.timeout`, whose lookup returns zero
addresses and a `DNSError` (here rendered as `DNS problem`), against a
resolver that returns zero addresses without error. -/
theorem getAddrs_messages_differ_witness :
    (mockVA.dnsClient.LookupHost (lit "always.timeout")
        = ([], some (.dns ⟨1, lit "always.timeout", some (.New (lit "timeout")), -1,
            lit "DNS problem"⟩))
      ∧ (constHost [] none).dnsClient.LookupHost (lit "always.timeout") = ([], none)
      ∧ (GoError.dns ⟨1, lit "always.timeout", some (.New (lit "timeout")), -1,
            lit "DNS problem"⟩).Error
          ≠ lit "No valid IP addresses found for " ++ lit "always.timeout")
    ∧ ∃ m m', (getAddrs mockVA (lit "always.timeout")).1 = (none, some ⟨.DNS, m⟩)
      ∧ (getAddrs (constHost [] none) (lit "always.timeout")).1 = (none, some ⟨.DNS, m'⟩)
      ∧ m = lit "DNS problem"
      ∧ m' = lit "No valid IP addresses found for " ++ lit "always.timeout" ∧ m ≠ m' :=
  ⟨⟨by decide, rfl, by decide⟩,
    getAddrs_messages_differ mockVA (constHost [] none) (lit "always.timeout") []
      (.dns ⟨1, lit "always.timeout", some (.New (lit "timeout")), -1, lit "DNS problem"⟩)
      (by decide) rfl (by decide)⟩

/-- Claim C17 as stated fails: a lookup error whose text is
`No valid IP addresses found for x` makes `getAddrs` return, for the host `x`,
the very error it returns when the lookup succeeds with zero addresses. -/
theorem getAddrs_messages_differ_counterexample :
    (constHost [] (some (.plain (.New (lit "No valid IP addresses found for x"))))).dnsClient.LookupHost
        (lit "x")
      = ([], some (.plain (.New (lit "No valid IP addresses found for x"))))
    ∧ (constHost [] none).dnsClient.LookupHost (lit "x") = ([], none)
    ∧ (getAddrs (constHost [] (some (.plain (.New (lit "No valid IP addresses found for x")))))
        (lit "x")).1
      = (none, some ⟨.DNS, lit "No valid IP addresses found for x"⟩)
    ∧ (getAddrs (constHost [] none) (lit "x")).1
      = (none, some ⟨.DNS, lit "No valid IP addresses found for x"⟩) := by
  refine ⟨rfl, rfl, ?_, ?_⟩
  · rw [getAddrs_lookupError _ (lit "x") (.plain (.New (lit "No valid IP addresses found for x")))
      rfl]
    rfl
  · rw [getAddrs_empty _ (lit "x") rfl]
    have e : lit "No valid IP addresses found for " ++ lit "x"
        = lit "No valid IP addresses found for x" := by decide
    rw [e]

/-! ## Further properties of the DNS-01 validator -/

/-- The queried name written with the prefix spelled out. -/
theorem challengeSubdomain_eq (d : GoString) :
    core.DNSPrefix ++ lit "." ++ d = lit "_acme-challenge." ++ d := by
  have e : core.DNSPrefix ++ lit "." = lit "_acme-challenge." := by decide
  rw [e]

/-- Claim C14: for a domain and two non-empty TXT record lists without a
matching record that have the same first record and the same number of
records, `validateDNS01` returns the same `Unauthorized` message; the
message is made of the first record, the record count and the domain alone,
and its length is that of the quoted first record, of the count suffix and of
the domain plus 47 bytes of fixed text. -/
theorem validateDNS01_message_depends (tbl : Nat → Bool) (va va' : ValidationAuthorityImpl)
    (ident : ACMEIdentifier) (challenge challenge' : Challenge) (txts txts' : List GoString)
    (first : GoString) (hT : ident.Typ = identifier.DNS)
    (hL : va.dnsClient.LookupTXT (core.DNSPrefix ++ lit "." ++ ident.Value) = (txts, none))
    (hL' : va'.dnsClient.LookupTXT (core.DNSPrefix ++ lit "." ++ ident.Value) = (txts', none))
    (hF : txts.head? = some first) (hF' : txts'.head? = some first)
    (hlen : txts.length = txts'.length)
    (hM : base64.RawURLEncodeToString (sha256.Sum challenge.ProvidedKeyAuthorization) ∉ txts)
    (hM' : base64.RawURLEncodeToString (sha256.Sum challenge'.ProvidedKeyAuthorization)
      ∉ txts') :
    ∃ msg ev ev',
      validateDNS01 tbl va ident challenge = .ok (⟨none, some ⟨.Unauthorized, msg⟩⟩, ev)
      ∧ validateDNS01 tbl va' ident challenge' = .ok (⟨none, some ⟨.Unauthorized, msg⟩⟩, ev')
      ∧ msg.length
        = 47 + (strconv.Quote tbl (replaceInvalidUTF8
              (if first.length > 100 then first.take 100 ++ lit "..." else first))).length
          + (if txts.length - 1 ≥ 1 then 12 + (strconv.Itoa (txts.length - 1)).length else 0)
          + ident.Value.length := by
  cases txts with
  | nil => simp at hF
  | cons t rest =>
    cases txts' with
    | nil => simp at hF'
    | cons t' rest' =>
      have ht : t = first := by simpa using hF
      have ht' : t' = first := by simpa using hF'
      rw [ht] at hL hM
      rw [ht'] at hL' hM'
      have hr : rest'.length = rest.length := by simpa using hlen.symm
      refine ⟨_, _, [.LookupTXT (core.DNSPrefix ++ lit "." ++ ident.Value)],
        validateDNS01_noMatch tbl va ident challenge first rest hT hL hM, ?_, ?_⟩
      · rw [validateDNS01_noMatch tbl va' ident challenge' first rest' hT hL' hM', hr]
        rfl
      · have h1 : (lit "Incorrect TXT record ").length = 21 := by decide
        have h2 : (lit " found at ").length = 10 := by decide
        have h3 : (core.DNSPrefix ++ lit ".").length = 16 := by decide
        have h4 : (lit " (and ").length = 6 := by decide
        have h5 : (lit " more)").length = 6 := by decide
        have hs : (t :: rest).length - 1 = rest.length := by simp
        rw [hs]
        by_cases hc : rest.length ≥ 1
        · rw [if_pos hc, if_pos hc]
          simp only [List.length_append, h1, h2, h3, h4, h5]
          omega
        · rw [if_neg hc, if_neg hc]
          simp only [List.length_append, h1, h2, h3, List.length_nil]
          omega

set_option maxRecDepth 1000000 in
/-- Claim C14 at the domain `x`: the record lists `a, b, c` and `a, d, e`
give the same message. -/
theorem validateDNS01_message_depends_witness :
    (identifier.DNS = identifier.DNS
      ∧ (constTXT [lit "a", lit "b", lit "c"]).dnsClient.LookupTXT
          (core.DNSPrefix ++ lit "." ++ lit "x") = ([lit "a", lit "b", lit "c"], none)
      ∧ (constTXT [lit "a", lit "d", lit "e"]).dnsClient.LookupTXT
          (core.DNSPrefix ++ lit "." ++ lit "x") = ([lit "a", lit "d", lit "e"], none)
      ∧ [lit "a", lit "b", lit "c"].head? = some (lit "a")
      ∧ [lit "a", lit "d", lit "e"].head? = some (lit "a")
      ∧ [lit "a", lit "b", lit "c"].length = [lit "a", lit "d", lit "e"].length
      ∧ base64.RawURLEncodeToString (sha256.Sum (lit "k")) ∉ [lit "a", lit "b", lit "c"]
      ∧ base64.RawURLEncodeToString (sha256.Sum (lit "k")) ∉ [lit "a", lit "d", lit "e"])
    ∧ ∃ msg ev ev',
      validateDNS01 (fun _ => false) (constTXT [lit "a", lit "b", lit "c"])
          ⟨identifier.DNS, lit "x"⟩ ⟨lit "k"⟩ = .ok (⟨none, some ⟨.Unauthorized, msg⟩⟩, ev)
      ∧ validateDNS01 (fun _ => false) (constTXT [lit "a", lit "d", lit "e"])
          ⟨identifier.DNS, lit "x"⟩ ⟨lit "k"⟩ = .ok (⟨none, some ⟨.Unauthorized, msg⟩⟩, ev')
      ∧ msg.length
        = 47 + (strconv.Quote (fun _ => false) (replaceInvalidUTF8
              (if (lit "a").length > 100 then (lit "a").take 100 ++ lit "..." else lit "a"))).length
          + (if [lit "a", lit "b", lit "c"].length - 1 ≥ 1 then
              12 + (strconv.Itoa ([lit "a", lit "b", lit "c"].length - 1)).length else 0)
          + (lit "x").length :=
  ⟨⟨rfl, rfl, rfl, rfl, rfl, rfl, digest_not_mem _ _ (by decide), digest_not_mem _ _ (by decide)⟩,
    validateDNS01_message_depends (fun _ => false) (constTXT [lit "a", lit "b", lit "c"])
      (constTXT [lit "a", lit "d", lit "e"]) ⟨identifier.DNS, lit "x"⟩ ⟨lit "k"⟩ ⟨lit "k"⟩
      [lit "a", lit "b", lit "c"] [lit "a", lit "d", lit "e"] (lit "a") rfl rfl rfl rfl rfl rfl
      (digest_not_mem _ _ (by decide)) (digest_not_mem _ _ (by decide))⟩

/-- Claim C15: for every identifier, challenge and resolver, `validateDNS01`
returns a typed result and does not panic: the index `txts[0]` is evaluated
only on a non-empty record list, where it is in range, and the slice
`invalidRecord[0:100]` only on a record longer than 100 bytes, where it is
within bounds; on an empty list, or on a shorter record, they would panic. -/
theorem validateDNS01_no_panic (tbl : Nat → Bool) (va : ValidationAuthorityImpl)
    (ident : ACMEIdentifier) (challenge : Challenge) :
    (∃ r ev, validateDNS01 tbl va ident challenge = .ok (r, ev))
    ∧ (∀ p, validateDNS01 tbl va ident challenge ≠ .error p)
    ∧ (∀ txts : List GoString, txts.length ≠ 0 → ∃ t, index txts 0 = .ok t)
    ∧ (∀ s : GoString, s.length > 100 → slice s 0 100 = .ok (s.take 100))
    ∧ index ([] : List GoString) 0 = .error .indexOutOfRange
    ∧ (∀ s : GoString, s.length < 100 → slice s 0 100 = .error .sliceBoundsOutOfRange) := by
  have hok : ∃ r ev, validateDNS01 tbl va ident challenge = .ok (r, ev) := by
    by_cases hT : ident.Typ = identifier.DNS
    · cases hr : va.dnsClient.LookupTXT (core.DNSPrefix ++ lit "." ++ ident.Value) with
      | mk txts err =>
        cases err with
        | some e =>
          exact ⟨_, _, validateDNS01_lookupError tbl va ident challenge e hT (by rw [hr])⟩
        | none =>
          by_cases hM :
              base64.RawURLEncodeToString (sha256.Sum challenge.ProvidedKeyAuthorization) ∈ txts
          · exact ⟨_, _, validateDNS01_match tbl va ident challenge txts hT hr hM⟩
          · cases txts with
            | nil => exact ⟨_, _, validateDNS01_empty tbl va ident challenge hT hr⟩
            | cons first rest =>
              exact ⟨_, _, validateDNS01_noMatch tbl va ident challenge first rest hT hr hM⟩
    · exact ⟨_, _, validateDNS01_notDNS tbl va ident challenge hT⟩
  refine ⟨hok, ?_, ?_, ?_, rfl, ?_⟩
  · intro p hp
    obtain ⟨r, ev, h⟩ := hok
    rw [h] at hp
    exact absurd hp (by simp)
  · intro txts hne
    cases txts with
    | nil => exact absurd rfl hne
    | cons t rest => exact ⟨t, rfl⟩
  · intro s hs
    unfold slice
    rw [if_pos ⟨Nat.zero_le _, Nat.le_of_lt hs⟩]
    rfl
  · intro s hs
    unfold slice
    rw [if_neg (fun h => by omega)]

/-- The entries that `logDNSError` writes are no resolver calls. -/
theorem logDNSError_no_call (ident : GoString) (e : GoError) :
    (logDNSError ident e).filter Event.isResolverCall = [] := by
  cases e with
  | plain p => rfl
  | dns d =>
    cases hu : d.underlying with
    | none => simp [logDNSError, hu]
    | some u =>
      by_cases h : u ≠ .Canceled ∧ u ≠ .DeadlineExceeded
      · simp only [logDNSError, hu]
        rw [if_pos h]
        rfl
      · simp only [logDNSError, hu]
        rw [if_neg h]
        rfl

/-- Claim C16: for an identifier of type DNS with value `d`, `validateDNS01`
performs exactly one resolver call, a TXT lookup for the name
`"_acme-challenge." + d`, and that name is the one its `Unauthorized`
messages end with. -/
theorem validateDNS01_single_lookup (tbl : Nat → Bool) (va : ValidationAuthorityImpl)
    (ident : ACMEIdentifier) (challenge : Challenge) (hT : ident.Typ = identifier.DNS) :
    ∃ r ev, validateDNS01 tbl va ident challenge = .ok (r, ev)
      ∧ ev.filter Event.isResolverCall = [.LookupTXT (lit "_acme-challenge." ++ ident.Value)]
      ∧ (∀ msg, r.prob = some ⟨.Unauthorized, msg⟩ →
          (lit "_acme-challenge." ++ ident.Value) <:+ msg) := by
  have hcall : [Event.LookupTXT (core.DNSPrefix ++ lit "." ++ ident.Value)].filter
      Event.isResolverCall = [.LookupTXT (lit "_acme-challenge." ++ ident.Value)] := by
    rw [challengeSubdomain_eq]
    rfl
  have hsuf : ∀ A : GoString,
      (lit "_acme-challenge." ++ ident.Value)
        <:+ A ++ (core.DNSPrefix ++ lit "." ++ ident.Value) := by
    intro A
    rw [challengeSubdomain_eq]
    exact List.suffix_append _ _
  cases hr : va.dnsClient.LookupTXT (core.DNSPrefix ++ lit "." ++ ident.Value) with
  | mk txts err =>
    cases err with
    | some e =>
      refine ⟨_, _, validateDNS01_lookupError tbl va ident challenge e hT (by rw [hr]), ?_, ?_⟩
      · rw [List.filter_cons, challengeSubdomain_eq, logDNSError_no_call]
        rfl
      · intro msg hmsg
        simp [probs.DNS] at hmsg
    | none =>
      by_cases hM :
          base64.RawURLEncodeToString (sha256.Sum challenge.ProvidedKeyAuthorization) ∈ txts
      · refine ⟨_, _, validateDNS01_match tbl va ident challenge txts hT hr hM, hcall, ?_⟩
        intro msg hmsg
        simp at hmsg
      · cases txts with
        | nil =>
          refine ⟨_, _, validateDNS01_empty tbl va ident challenge hT hr, hcall, ?_⟩
          intro msg hmsg
          simp only [probs.Unauthorized, Option.some.injEq, ProblemDetails.mk.injEq,
            true_and] at hmsg
          rw [← hmsg]
          exact hsuf _
        | cons first rest =>
          refine ⟨_, _, validateDNS01_noMatch tbl va ident challenge first rest hT hr hM,
            hcall, ?_⟩
          intro msg hmsg
          simp only [probs.Unauthorized, Option.some.injEq, ProblemDetails.mk.injEq,
            true_and] at hmsg
          rw [← hmsg]
          exact hsuf _

/-- Claim C16 at the mock's `wrong-dns01.com`. -/
theorem validateDNS01_single_lookup_witness :
    identifier.DNS = identifier.DNS
    ∧ ∃ r ev, validateDNS01 (fun _ => false) mockVA ⟨identifier.DNS, lit "wrong-dns01.com"⟩
          ⟨lit "k"⟩ = .ok (r, ev)
      ∧ ev.filter Event.isResolverCall
        = [.LookupTXT (lit "_acme-challenge." ++ lit "wrong-dns01.com")]
      ∧ (∀ msg, r.prob = some ⟨.Unauthorized, msg⟩ →
          (lit "_acme-challenge." ++ lit "wrong-dns01.com") <:+ msg) :=
  ⟨rfl, validateDNS01_single_lookup (fun _ => false) mockVA
    ⟨identifier.DNS, lit "wrong-dns01.com"⟩ ⟨lit "k"⟩ rfl⟩

/-! ## The shape of the expected digest -/

/-- Every character that the encoder emits belongs to the URL-safe
alphabet. -/
theorem base64.enc_isURLChar (i : Nat) : isURLChar (base64.enc i) = true := by
  have hlt : i &&& 0x3F < 64 := Nat.and_lt_two_pow i (n := 6) (by decide)
  have hall : ∀ j, j < 64 → isURLChar (base64.encodeURL.getD j 0) = true := by decide
  exact hall _ hlt

/-- Every character of an encoding belongs to the URL-safe alphabet. -/
theorem base64.RawURLEncodeToString_chars (s : GoString) :
    ∀ c ∈ base64.RawURLEncodeToString s, isURLChar c = true := by
  induction s using base64.RawURLEncodeToString.induct with
  | case1 a b c rest ih =>
    intro x hx
    simp only [base64.RawURLEncodeToString, List.mem_cons] at hx
    rcases hx with rfl | rfl | rfl | rfl | hx
    · exact base64.enc_isURLChar _
    · exact base64.enc_isURLChar _
    · exact base64.enc_isURLChar _
    · exact base64.enc_isURLChar _
    · exact ih x hx
  | case2 a b =>
    intro x hx
    simp only [base64.RawURLEncodeToString, List.mem_cons, List.mem_singleton,
      List.not_mem_nil, or_false] at hx
    rcases hx with rfl | rfl | rfl <;> exact base64.enc_isURLChar _
  | case3 a =>
    intro x hx
    simp only [base64.RawURLEncodeToString, List.mem_cons, List.mem_singleton,
      List.not_mem_nil, or_false] at hx
    rcases hx with rfl | rfl <;> exact base64.enc_isURLChar _
  | case4 =>
    intro x hx
    simp [base64.RawURLEncodeToString] at hx

/-- Claim C19: for every key authorization, the expected digest computed by
`validateDNS01` is exactly 43 bytes long and consists only of the characters
`A-Z`, `a-z`, `0-9`, `-` and `_`, hence holds no `=` padding; consequently,
when no TXT record returned by the lookup is exactly 43 bytes long, the
validation does not succeed: `validateDNS01` returns no validation records
but a problem. -/
theorem validateDNS01_digest_shape (tbl : Nat → Bool) (va : ValidationAuthorityImpl)
    (ident : ACMEIdentifier) (k : GoString)
    (h43 : ∀ t ∈ (va.dnsClient.LookupTXT (core.DNSPrefix ++ lit "." ++ ident.Value)).1,
      t.length ≠ 43) :
    (base64.RawURLEncodeToString (sha256.Sum k)).length = 43
    ∧ (∀ c ∈ base64.RawURLEncodeToString (sha256.Sum k), isURLChar c = true)
    ∧ (∀ c ∈ base64.RawURLEncodeToString (sha256.Sum k), c.val ≠ 0x3D)
    ∧ ∃ p ev, validateDNS01 tbl va ident ⟨k⟩ = .ok (⟨none, some p⟩, ev) := by
  refine ⟨digest_length k, base64.RawURLEncodeToString_chars _, ?_, ?_⟩
  · intro c hc
    have hu := base64.RawURLEncodeToString_chars _ c hc
    simp only [isURLChar, Bool.or_eq_true, Bool.and_eq_true, decide_eq_true_eq] at hu
    omega
  · by_cases hT : ident.Typ = identifier.DNS
    · cases hr : va.dnsClient.LookupTXT (core.DNSPrefix ++ lit "." ++ ident.Value) with
      | mk txts err =>
        rw [hr] at h43
        cases err with
        | some e =>
          exact ⟨_, _, validateDNS01_lookupError tbl va ident ⟨k⟩ e hT (by rw [hr])⟩
        | none =>
          have hM := digest_not_mem k txts h43
          cases txts with
          | nil => exact ⟨_, _, validateDNS01_empty tbl va ident ⟨k⟩ hT hr⟩
          | cons first rest =>
            exact ⟨_, _, validateDNS01_noMatch tbl va ident ⟨k⟩ first rest hT hr hM⟩
    · exact ⟨_, _, validateDNS01_notDNS tbl va ident ⟨k⟩ hT⟩

/-- Claim C19 at the mock's `wrong-many-dns01.com`, whose five records have
one byte each. -/
theorem validateDNS01_digest_shape_witness :
    (∀ t ∈ (mockVA.dnsClient.LookupTXT
        (core.DNSPrefix ++ lit "." ++ lit "wrong-many-dns01.com")).1, t.length ≠ 43)
    ∧ (base64.RawURLEncodeToString (sha256.Sum (lit "k"))).length = 43
    ∧ (∀ c ∈ base64.RawURLEncodeToString (sha256.Sum (lit "k")), isURLChar c = true)
    ∧ (∀ c ∈ base64.RawURLEncodeToString (sha256.Sum (lit "k")), c.val ≠ 0x3D)
    ∧ ∃ p ev, validateDNS01 (fun _ => false) mockVA
        ⟨identifier.DNS, lit "wrong-many-dns01.com"⟩ ⟨lit "k"⟩ = .ok (⟨none, some p⟩, ev) :=
  ⟨by decide,
    validateDNS01_digest_shape (fun _ => false) mockVA
      ⟨identifier.DNS, lit "wrong-many-dns01.com"⟩ (lit "k") (by decide)⟩

/-! ## The lint for GeneralizedTime values not in Zulu -/

/-- On a non-empty slice the index `len - 1` is in range and selects the last
element. -/
theorem indexInt_last {α : Type} (l : List α) (h : l ≠ []) :
    indexInt l ((l.length : Int) - 1) = .ok (l.getLast h) := by
  have hpos : 0 < l.length := List.length_pos.2 h
  have hn : ¬ ((l.length : Int) - 1 < 0) := by omega
  have ht : ((l.length : Int) - 1).toNat = l.length - 1 := by omega
  unfold indexInt index
  rw [if_neg hn, ht, List.getLast_eq_getElem]
  have hlt : l.length - 1 < l.length := by omega
  rw [List.get?_eq_get hlt]
  rfl

/-- On an empty slice the index `len - 1` is out of range. -/
theorem indexInt_last_nil {α : Type} :
    indexInt ([] : List α) ((([] : List α).length : Int) - 1) = .error .indexOutOfRange := by
  rfl

/-- The second half of `Execute` on a second date that, when its flag is set,
has content. -/
theorem generalizedNotZulu.Execute.second_eq (l : generalizedNotZulu) (date2 : RawValue)
    (h2 : l.date2Gen = true → date2.Bytes ≠ []) :
    generalizedNotZulu.Execute.second l date2
      = .ok ⟨if l.date2Gen = true ∧ date2.Bytes.getLast? ≠ some 0x5A then .Error else .Pass⟩ := by
  unfold generalizedNotZulu.Execute.second
  by_cases hg : l.date2Gen = true
  · have hne := h2 hg
    rw [if_pos hg, indexInt_last _ hne, List.getLast?_eq_getLast _ hne]
    by_cases hz : date2.Bytes.getLast hne = 0x5A
    · simp [hz]
    · simp [hz, hg]
  · rw [if_neg hg, if_neg (fun h => hg h.1)]

/-- Claim C18, amended: for every certificate whose validity dates that are
encoded as GeneralizedTime (tag 24) have content, `CheckApplies` returns true
if and only if at least one of the two validity dates is encoded with tag 24,
and after it `Execute` returns `Error` if and only if some validity date
encoded as GeneralizedTime is not expressed in Zulu, that is, its last
content byte is not `Z`, and returns `Pass` otherwise. -/
theorem generalizedNotZulu.Execute_of_content {Certificate : Type} (util : Util Certificate)
    (l0 : generalizedNotZulu) (c : Certificate)
    (h1 : (util.FindTimeType (util.GetTimes c).1 (util.GetTimes c).2).1 = 24 →
      (util.GetTimes c).1.Bytes ≠ [])
    (h2 : (util.FindTimeType (util.GetTimes c).1 (util.GetTimes c).2).2 = 24 →
      (util.GetTimes c).2.Bytes ≠ []) :
    ((generalizedNotZulu.CheckApplies util l0 c).1 = true ↔
        (util.FindTimeType (util.GetTimes c).1 (util.GetTimes c).2).1 = 24
          ∨ (util.FindTimeType (util.GetTimes c).1 (util.GetTimes c).2).2 = 24)
    ∧ generalizedNotZulu.Execute util (generalizedNotZulu.CheckApplies util l0 c).2 c
      = .ok ⟨if ((util.FindTimeType (util.GetTimes c).1 (util.GetTimes c).2).1 = 24
                ∧ (util.GetTimes c).1.Bytes.getLast? ≠ some 0x5A)
              ∨ ((util.FindTimeType (util.GetTimes c).1 (util.GetTimes c).2).2 = 24
                ∧ (util.GetTimes c).2.Bytes.getLast? ≠ some 0x5A)
            then .Error else .Pass⟩ := by
  constructor
  · simp [generalizedNotZulu.CheckApplies]
  · have hs := generalizedNotZulu.Execute.second_eq
      (generalizedNotZulu.CheckApplies util l0 c).2 (util.GetTimes c).2
      (by simpa [generalizedNotZulu.CheckApplies] using h2)
    unfold generalizedNotZulu.Execute
    simp only [hs]
    by_cases hg : (util.FindTimeType (util.GetTimes c).1 (util.GetTimes c).2).1 = 24
    · have hne := h1 hg
      have hf : (generalizedNotZulu.CheckApplies util l0 c).2.date1Gen = true := by
        simp [generalizedNotZulu.CheckApplies, hg]
      rw [if_pos hf, indexInt_last _ hne, List.getLast?_eq_getLast _ hne]
      by_cases hz : (util.GetTimes c).1.Bytes.getLast hne = 0x5A
      · simp [hz, generalizedNotZulu.CheckApplies]
      · simp [hz, hg]
    · have hf : ¬ (generalizedNotZulu.CheckApplies util l0 c).2.date1Gen = true := by
        simp [generalizedNotZulu.CheckApplies, hg]
      rw [if_neg hf]
      simp [hg, generalizedNotZulu.CheckApplies]

/-- Claim C18 at a certificate whose first validity date is a
GeneralizedTime with a numeric zone and whose second is a UTCTime in Zulu:
the lint applies and `Execute` returns `Error`. -/
theorem generalizedNotZulu.Execute_of_content_witness :
    (((plainUtil.FindTimeType
          (plainUtil.GetTimes (⟨24, lit "20500101000000+0100"⟩, ⟨23, lit "200101000000Z"⟩)).1
          (plainUtil.GetTimes (⟨24, lit "20500101000000+0100"⟩, ⟨23, lit "200101000000Z"⟩)).2).1
        = 24 →
        (plainUtil.GetTimes (⟨24, lit "20500101000000+0100"⟩, ⟨23, lit "200101000000Z"⟩)).1.Bytes
          ≠ [])
      ∧ ((plainUtil.FindTimeType
          (plainUtil.GetTimes (⟨24, lit "20500101000000+0100"⟩, ⟨23, lit "200101000000Z"⟩)).1
          (plainUtil.GetTimes (⟨24, lit "20500101000000+0100"⟩, ⟨23, lit "200101000000Z"⟩)).2).2
        = 24 →
        (plainUtil.GetTimes (⟨24, lit "20500101000000+0100"⟩, ⟨23, lit "200101000000Z"⟩)).2.Bytes
          ≠ []))
    ∧ (generalizedNotZulu.CheckApplies plainUtil ⟨false, false⟩
        (⟨24, lit "20500101000000+0100"⟩, ⟨23, lit "200101000000Z"⟩)).1 = true
    ∧ generalizedNotZulu.Execute plainUtil
        (generalizedNotZulu.CheckApplies plainUtil ⟨false, false⟩
          (⟨24, lit "20500101000000+0100"⟩, ⟨23, lit "200101000000Z"⟩)).2
        (⟨24, lit "20500101000000+0100"⟩, ⟨23, lit "200101000000Z"⟩)
      = .ok ⟨.Error⟩ := by
  have h := generalizedNotZulu.Execute_of_content plainUtil ⟨false, false⟩
    (⟨24, lit "20500101000000+0100"⟩, ⟨23, lit "200101000000Z"⟩)
    (fun _ => by decide) (fun _ => by decide)
  refine ⟨⟨fun _ => by decide, fun _ => by decide⟩, h.1.2 (Or.inl rfl), ?_⟩
  rw [h.2]
  rfl

/-- Claim C18 as stated fails on a certificate whose first validity date is a
UTCTime in Zulu and whose second is tagged GeneralizedTime (24) and has no
content, so that it is not expressed in Zulu.  `CheckApplies` returns true,
and `Execute` then returns neither `Error` nor `Pass`: it panics on the index
`len(date2.Bytes) - 1`. -/
theorem generalizedNotZulu_Execute_empty_second_date :
    (generalizedNotZulu.CheckApplies plainUtil ⟨false, false⟩
        (⟨23, lit "200101000000Z"⟩, ⟨24, []⟩)).1 = true
    ∧ generalizedNotZulu.Execute plainUtil
        (generalizedNotZulu.CheckApplies plainUtil ⟨false, false⟩
          (⟨23, lit "200101000000Z"⟩, ⟨24, []⟩)).2
        (⟨23, lit "200101000000Z"⟩, ⟨24, []⟩)
      ≠ .ok ⟨.Error⟩
    ∧ generalizedNotZulu.Execute plainUtil
        (generalizedNotZulu.CheckApplies plainUtil ⟨false, false⟩
          (⟨23, lit "200101000000Z"⟩, ⟨24, []⟩)).2
        (⟨23, lit "200101000000Z"⟩, ⟨24, []⟩)
      ≠ .ok ⟨.Pass⟩
    ∧ generalizedNotZulu.Execute plainUtil
        (generalizedNotZulu.CheckApplies plainUtil ⟨false, false⟩
          (⟨23, lit "200101000000Z"⟩, ⟨24, []⟩)).2
        (⟨23, lit "200101000000Z"⟩, ⟨24, []⟩)
      = .error .indexOutOfRange := by
  have h : generalizedNotZulu.Execute plainUtil
        (generalizedNotZulu.CheckApplies plainUtil ⟨false, false⟩
          (⟨23, lit "200101000000Z"⟩, ⟨24, []⟩)).2
        (⟨23, lit "200101000000Z"⟩, ⟨24, []⟩)
      = .error .indexOutOfRange := rfl
  refine ⟨rfl, ?_, ?_, h⟩
  · rw [h]
    simp
  · rw [h]
    simp

/-- Claim C20, amended: for every certificate and every flag state, in
particular the one left by `CheckApplies`, `Execute` returns a `LintResult`
without indexing out of range on the date bytes, for every non-zero length of
the content of a date whose flag is set, that is of a GeneralizedTime-tagged
date. -/
theorem generalizedNotZulu_Execute_returns {Certificate : Type} (util : Util Certificate)
    (l : generalizedNotZulu) (c : Certificate)
    (h1 : l.date1Gen = true → (util.GetTimes c).1.Bytes.length ≠ 0)
    (h2 : l.date2Gen = true → (util.GetTimes c).2.Bytes.length ≠ 0) :
    (∃ r, generalizedNotZulu.Execute util l c = .ok r)
    ∧ (∀ p, generalizedNotZulu.Execute util l c ≠ .error p) := by
  have hs := generalizedNotZulu.Execute.second_eq l (util.GetTimes c).2
    (fun hg hnil => h2 hg (by rw [hnil]; rfl))
  have hok : ∃ r, generalizedNotZulu.Execute util l c = .ok r := by
    unfold generalizedNotZulu.Execute
    simp only [hs]
    by_cases hg : l.date1Gen = true
    · have hne : (util.GetTimes c).1.Bytes ≠ [] := fun hnil => h1 hg (by rw [hnil]; rfl)
      rw [if_pos hg, indexInt_last _ hne]
      by_cases hz : (util.GetTimes c).1.Bytes.getLast hne = 0x5A
      · refine ⟨⟨if l.date2Gen = true ∧ (util.GetTimes c).2.Bytes.getLast? ≠ some 0x5A
          then .Error else .Pass⟩, ?_⟩
        simp only [hz, ne_eq, not_true_eq_false, if_false]
      · refine ⟨⟨.Error⟩, ?_⟩
        simp only [ne_eq, hz, not_false_eq_true, if_true]
    · rw [if_neg hg]
      exact ⟨_, rfl⟩
  refine ⟨hok, ?_⟩
  intro p hp
  obtain ⟨r, hr⟩ := hok
  rw [hr] at hp
  exact absurd hp (by simp)

/-- Claim C20 at a certificate whose first validity date is a GeneralizedTime
of 15 bytes in Zulu, with the flags that `CheckApplies` leaves. -/
theorem generalizedNotZulu_Execute_returns_witness :
    (((generalizedNotZulu.CheckApplies plainUtil ⟨false, false⟩
          (⟨24, lit "20500101000000Z"⟩, ⟨23, lit "200101000000Z"⟩)).2.date1Gen = true →
        (plainUtil.GetTimes (⟨24, lit "20500101000000Z"⟩, ⟨23, lit "200101000000Z"⟩)).1.Bytes.length
          ≠ 0)
      ∧ ((generalizedNotZulu.CheckApplies plainUtil ⟨false, false⟩
          (⟨24, lit "20500101000000Z"⟩, ⟨23, lit "200101000000Z"⟩)).2.date2Gen = true →
        (plainUtil.GetTimes (⟨24, lit "20500101000000Z"⟩, ⟨23, lit "200101000000Z"⟩)).2.Bytes.length
          ≠ 0))
    ∧ (∃ r, generalizedNotZulu.Execute plainUtil
        (generalizedNotZulu.CheckApplies plainUtil ⟨false, false⟩
          (⟨24, lit "20500101000000Z"⟩, ⟨23, lit "200101000000Z"⟩)).2
        (⟨24, lit "20500101000000Z"⟩, ⟨23, lit "200101000000Z"⟩) = .ok r)
    ∧ (∀ p, generalizedNotZulu.Execute plainUtil
        (generalizedNotZulu.CheckApplies plainUtil ⟨false, false⟩
          (⟨24, lit "20500101000000Z"⟩, ⟨23, lit "200101000000Z"⟩)).2
        (⟨24, lit "20500101000000Z"⟩, ⟨23, lit "200101000000Z"⟩) ≠ .error p) :=
  ⟨⟨fun _ => by decide, fun _ => by decide⟩,
    generalizedNotZulu_Execute_returns plainUtil
      (generalizedNotZulu.CheckApplies plainUtil ⟨false, false⟩
        (⟨24, lit "20500101000000Z"⟩, ⟨23, lit "200101000000Z"⟩)).2
      (⟨24, lit "20500101000000Z"⟩, ⟨23, lit "200101000000Z"⟩)
      (fun _ => by decide) (fun _ => by decide)⟩

/-- Claim C20 as stated fails on a certificate whose first validity date is
tagged GeneralizedTime (24) and has content of length zero.  With the flags
that `CheckApplies` leaves, `Execute` returns no `LintResult`: the index
`date1.Bytes[len(date1.Bytes)-1]` is out of range. -/
theorem generalizedNotZulu_Execute_empty_first_date :
    (generalizedNotZulu.CheckApplies plainUtil ⟨false, false⟩
        (⟨24, []⟩, ⟨23, lit "200101000000Z"⟩)).2 = ⟨true, false⟩
    ∧ generalizedNotZulu.Execute plainUtil
        (generalizedNotZulu.CheckApplies plainUtil ⟨false, false⟩
          (⟨24, []⟩, ⟨23, lit "200101000000Z"⟩)).2
        (⟨24, []⟩, ⟨23, lit "200101000000Z"⟩)
      = .error .indexOutOfRange
    ∧ ∀ r : LintResult, generalizedNotZulu.Execute plainUtil
        (generalizedNotZulu.CheckApplies plainUtil ⟨false, false⟩
          (⟨24, []⟩, ⟨23, lit "200101000000Z"⟩)).2
        (⟨24, []⟩, ⟨23, lit "200101000000Z"⟩) ≠ .ok r := by
  have h : generalizedNotZulu.Execute plainUtil
        (generalizedNotZulu.CheckApplies plainUtil ⟨false, false⟩
          (⟨24, []⟩, ⟨23, lit "200101000000Z"⟩)).2
        (⟨24, []⟩, ⟨23, lit "200101000000Z"⟩)
      = .error .indexOutOfRange := rfl
  refine ⟨rfl, h, ?_⟩
  intro r
  rw [h]
  simp

/-! ## UTF-8 validity of sanitised and quoted text -/

/-- Decoding a non-empty string consumes at least one byte. -/
theorem utf8.DecodeRune_width_pos (p0 : Byte) (rest : GoString) :
    1 ≤ (utf8.DecodeRune (p0 :: rest)).2 := by
  simp only [utf8.DecodeRune]
  repeat' split
  all_goals simp

/-- One step of the decoding loop. -/
theorem utf8.decodeAll_cons (fuel : Nat) (p0 : Byte) (rest : GoString) :
    utf8.decodeAll (fuel + 1) (p0 :: rest)
      = ((utf8.DecodeRune (p0 :: rest)).1, (utf8.DecodeRune (p0 :: rest)).2, p0)
        :: utf8.decodeAll fuel ((p0 :: rest).drop (utf8.DecodeRune (p0 :: rest)).2) := by
  simp only [utf8.decodeAll]

/-- The decoding loop does not depend on the fuel once the fuel covers the
string. -/
theorem utf8.decodeAll_fuel (fuel : Nat) :
    ∀ (s : GoString) (fuel' : Nat), s.length ≤ fuel → s.length ≤ fuel' →
      utf8.decodeAll fuel s = utf8.decodeAll fuel' s := by
  induction fuel with
  | zero =>
    intro s fuel' h _
    have hs : s = [] := List.length_eq_zero.1 (Nat.le_zero.1 h)
    subst hs
    cases fuel' <;> rfl
  | succ f ih =>
    intro s fuel' h h'
    cases s with
    | nil => cases fuel' <;> rfl
    | cons p0 rest =>
      cases fuel' with
      | zero => simp at h'
      | succ f' =>
        have hw := utf8.DecodeRune_width_pos p0 rest
        have hd : ((p0 :: rest).drop (utf8.DecodeRune (p0 :: rest)).2).length ≤ rest.length := by
          rw [List.length_drop, List.length_cons]
          omega
        simp only [List.length_cons] at h h'
        simp only [utf8.decodeAll]
        rw [ih _ f' (by omega) (by omega)]

/-- The decoding loop makes at most as many steps as it has fuel. -/
theorem utf8.decodeAll_length (fuel : Nat) :
    ∀ s : GoString, (utf8.decodeAll fuel s).length ≤ fuel := by
  induction fuel with
  | zero =>
    intro s
    simp [utf8.decodeAll]
  | succ f ih =>
    intro s
    cases s with
    | nil => simp [utf8.decodeAll]
    | cons p0 rest =>
      simp only [utf8.decodeAll, List.length_cons]
      exact Nat.succ_le_succ (ih _)

/-- The empty string is clean. -/
theorem utf8.Clean_nil : utf8.Clean [] := by
  intro rest fuel h
  refine ⟨[], ?_, rfl⟩
  rw [List.nil_append, List.nil_append]
  exact utf8.decodeAll_fuel fuel rest rest.length (by simpa using h) (Nat.le_refl _)

/-- Clean strings concatenate. -/
theorem utf8.Clean_append {a b : GoString} (ha : utf8.Clean a) (hb : utf8.Clean b) :
    utf8.Clean (a ++ b) := by
  intro rest fuel h
  obtain ⟨D1, h1, k1⟩ := ha (b ++ rest) fuel (by simpa [List.append_assoc] using h)
  obtain ⟨D2, h2, k2⟩ := hb rest (b ++ rest).length (Nat.le_refl _)
  refine ⟨D1 ++ D2, ?_, ?_⟩
  · rw [List.append_assoc, h1, h2, List.append_assoc]
  · rw [List.all_append, k1, k2]
    rfl

/-- A clean string is valid UTF-8. -/
theorem utf8.Valid_of_Clean {s : GoString} (hs : utf8.Clean s) : utf8.Valid s = true := by
  obtain ⟨D, h, k⟩ := hs [] s.length (by simp)
  unfold utf8.Valid
  rw [List.append_nil] at h
  rw [h]
  simpa [utf8.decodeAll] using k

/-- A non-empty string that decodes as one rune of its full length, and not
as an encoding error, whatever follows, is clean. -/
theorem utf8.Clean_of_rune (p0 : Byte) (c : GoString)
    (h : ∀ rest, (utf8.DecodeRune (p0 :: (c ++ rest))).2 = c.length + 1
      ∧ ¬ ((utf8.DecodeRune (p0 :: (c ++ rest))).1 = utf8.RuneError ∧ c.length + 1 = 1)) :
    utf8.Clean (p0 :: c) := by
  intro rest fuel hf
  cases fuel with
  | zero => simp at hf
  | succ f =>
    obtain ⟨hw, hne⟩ := h rest
    refine ⟨[((utf8.DecodeRune (p0 :: (c ++ rest))).1, (utf8.DecodeRune (p0 :: (c ++ rest))).2,
      p0)], ?_, ?_⟩
    · have hdrop : (p0 :: (c ++ rest)).drop (c.length + 1) = rest := by
        rw [List.drop_succ_cons, List.drop_left]
      simp only [List.cons_append, List.length_cons, List.length_append] at hf
      rw [List.cons_append, utf8.decodeAll_cons, hw, hdrop,
        utf8.decodeAll_fuel f rest rest.length (by omega) (Nat.le_refl _)]
      rfl
    · simp only [List.all_cons, List.all_nil, Bool.and_true, hw]
      by_cases he : (utf8.DecodeRune (p0 :: (c ++ rest))).1 = utf8.RuneError
      · have : ¬ c.length + 1 = 1 := fun h1 => hne ⟨he, h1⟩
        simp [this]
      · simp [he]

/-- A single ASCII byte is clean. -/
theorem utf8.Clean_ascii_byte (b : Byte) (hb : b.val < 0x80) : utf8.Clean [b] := by
  apply utf8.Clean_of_rune b []
  intro rest
  have hd : utf8.DecodeRune (b :: ([] ++ rest)) = (b.val, 1) := by
    simp only [List.nil_append, utf8.DecodeRune]
    rw [if_pos hb]
  rw [hd]
  refine ⟨rfl, ?_⟩
  rintro ⟨h1, _⟩
  simp only [utf8.RuneError] at h1
  omega

/-- An ASCII string is clean. -/
theorem utf8.Clean_ascii (s : GoString) (hs : ∀ b ∈ s, b.val < 0x80) : utf8.Clean s := by
  induction s with
  | nil => exact utf8.Clean_nil
  | cons b rest ih =>
    have h1 := utf8.Clean_ascii_byte b (hs b (List.mem_cons_self _ _))
    have h2 := ih (fun c hc => hs c (List.mem_cons_of_mem _ hc))
    exact utf8.Clean_append h1 h2

/-- A concatenation of clean pieces is clean. -/
theorem utf8.Clean_flatMap {α : Type} (f : α → GoString) (l : List α)
    (h : ∀ x ∈ l, utf8.Clean (f x)) : utf8.Clean (l.flatMap f) := by
  induction l with
  | nil => exact utf8.Clean_nil
  | cons x rest ih =>
    rw [List.flatMap_cons]
    exact utf8.Clean_append (h x (List.mem_cons_self _ _))
      (ih (fun y hy => h y (List.mem_cons_of_mem _ hy)))

/-- The value of a byte built from a number below 256. -/
theorem byte_val_of_lt (n : Nat) (h : n < 256) : (byte n).val = n :=
  Nat.mod_eq_of_lt h

/-- The encoding of any rune is clean. -/
theorem utf8.Clean_encodeRune (r : Nat) : utf8.Clean (encodeRune r) := by
  have or80 : ∀ y, y < 64 → 0x80 ||| y = 0x80 + y := by decide
  have orC0 : ∀ y, y < 32 → 0xC0 ||| y = 0xC0 + y := by decide
  have orE0 : ∀ y, y < 16 → 0xE0 ||| y = 0xE0 + y := by decide
  have orF0 : ∀ y, y < 8 → 0xF0 ||| y = 0xF0 + y := by decide
  have and3F : ∀ x : Nat, x &&& 0x3F = x % 64 := fun x => Nat.and_pow_two_sub_one_eq_mod x 6
  unfold encodeRune
  by_cases h1 : r ≤ 0x7F
  · rw [if_pos h1]
    exact utf8.Clean_ascii_byte _ (by rw [byte_val_of_lt r (by omega)]; omega)
  rw [if_neg h1]
  by_cases h2 : r ≤ 0x7FF
  · rw [if_pos h2]
    apply utf8.Clean_of_rune
    intro rest
    have v0 : (byte (0xC0 ||| (r >>> 6))).val = 0xC0 + r / 64 := by
      rw [Nat.shiftRight_eq_div_pow, orC0 _ (by omega), byte_val_of_lt _ (by omega)]
    have v1 : (byte (0x80 ||| (r &&& 0x3F))).val = 0x80 + r % 64 := by
      rw [and3F, or80 _ (by omega), byte_val_of_lt _ (by omega)]
    have hf : utf8.first (0xC0 + r / 64) = (2, 0x80, 0xBF) := by
      unfold utf8.first
      rw [if_neg (by omega), if_pos (by omega)]
    simp only [List.singleton_append, utf8.DecodeRune, v0, v1, hf]
    rw [if_neg (by omega)]
    simp only [Nat.reduceEqDiff, if_false]
    rw [if_neg (by omega)]
    simp
  rw [if_neg h2]
  by_cases h3 : r > 0x10FFFF ∨ (0xD800 ≤ r ∧ r ≤ 0xDFFF)
  · rw [if_pos h3]
    apply utf8.Clean_of_rune
    intro rest
    exact ⟨rfl, by simp⟩
  rw [if_neg h3]
  by_cases h4 : r ≤ 0xFFFF
  · rw [if_pos h4]
    apply utf8.Clean_of_rune
    intro rest
    have v0 : (byte (0xE0 ||| (r >>> 12))).val = 0xE0 + r / 4096 := by
      rw [Nat.shiftRight_eq_div_pow, orE0 _ (by omega), byte_val_of_lt _ (by omega)]
    have v1 : (byte (0x80 ||| ((r >>> 6) &&& 0x3F))).val = 0x80 + r / 64 % 64 := by
      rw [and3F, Nat.shiftRight_eq_div_pow, or80 _ (by omega), byte_val_of_lt _ (by omega)]
    have v2 : (byte (0x80 ||| (r &&& 0x3F))).val = 0x80 + r % 64 := by
      rw [and3F, or80 _ (by omega), byte_val_of_lt _ (by omega)]
    have hf : ∃ lo hi, utf8.first (0xE0 + r / 4096) = (3, lo, hi)
        ∧ lo ≤ 0x80 + r / 64 % 64 ∧ 0x80 + r / 64 % 64 ≤ hi := by
      unfold utf8.first
      rw [if_neg (by omega), if_neg (by omega)]
      by_cases e0 : 0xE0 + r / 4096 = 0xE0
      · rw [if_pos e0]
        exact ⟨_, _, rfl, by omega, by omega⟩
      · rw [if_neg e0]
        by_cases ed : 0xE0 + r / 4096 = 0xED
        · rw [if_pos ed]
          exact ⟨_, _, rfl, by omega, by omega⟩
        · rw [if_neg ed, if_pos (by omega)]
          exact ⟨_, _, rfl, by omega, by omega⟩
    obtain ⟨lo, hi, hf, hlo, hhi⟩ := hf
    have hc2 : utf8.cont (byte (0x80 ||| (r &&& 0x3F))) = true := by
      simp only [utf8.cont, v2, Bool.and_eq_true, decide_eq_true_eq]
      omega
    simp only [List.cons_append, List.nil_append, utf8.DecodeRune, v0, v1, hf, hc2]
    rw [if_neg (by omega)]
    simp only [Nat.reduceEqDiff, if_false]
    rw [if_neg (by omega)]
    simp
  · rw [if_neg h4]
    apply utf8.Clean_of_rune
    intro rest
    have v0 : (byte (0xF0 ||| (r >>> 18))).val = 0xF0 + r / 262144 := by
      rw [Nat.shiftRight_eq_div_pow, orF0 _ (by omega), byte_val_of_lt _ (by omega)]
    have v1 : (byte (0x80 ||| ((r >>> 12) &&& 0x3F))).val = 0x80 + r / 4096 % 64 := by
      rw [and3F, Nat.shiftRight_eq_div_pow, or80 _ (by omega), byte_val_of_lt _ (by omega)]
    have v2 : (byte (0x80 ||| ((r >>> 6) &&& 0x3F))).val = 0x80 + r / 64 % 64 := by
      rw [and3F, Nat.shiftRight_eq_div_pow, or80 _ (by omega), byte_val_of_lt _ (by omega)]
    have v3 : (byte (0x80 ||| (r &&& 0x3F))).val = 0x80 + r % 64 := by
      rw [and3F, or80 _ (by omega), byte_val_of_lt _ (by omega)]
    have hf : ∃ lo hi, utf8.first (0xF0 + r / 262144) = (4, lo, hi)
        ∧ lo ≤ 0x80 + r / 4096 % 64 ∧ 0x80 + r / 4096 % 64 ≤ hi := by
      unfold utf8.first
      rw [if_neg (by omega), if_neg (by omega), if_neg (by omega), if_neg (by omega),
        if_neg (by omega)]
      by_cases e0 : 0xF0 + r / 262144 = 0xF0
      · rw [if_pos e0]
        exact ⟨_, _, rfl, by omega, by omega⟩
      · rw [if_neg e0]
        by_cases e3 : 0xF0 + r / 262144 ≤ 0xF3
        · rw [if_pos e3]
          exact ⟨_, _, rfl, by omega, by omega⟩
        · rw [if_neg e3, if_pos (by omega)]
          exact ⟨_, _, rfl, by omega, by omega⟩
    obtain ⟨lo, hi, hf, hlo, hhi⟩ := hf
    have hc2 : utf8.cont (byte (0x80 ||| ((r >>> 6) &&& 0x3F))) = true := by
      simp only [utf8.cont, v2, Bool.and_eq_true, decide_eq_true_eq]
      omega
    have hc3 : utf8.cont (byte (0x80 ||| (r &&& 0x3F))) = true := by
      simp only [utf8.cont, v3, Bool.and_eq_true, decide_eq_true_eq]
      omega
    simp only [List.cons_append, List.nil_append, utf8.DecodeRune, v0, v1, hf, hc2, hc3]
    rw [if_neg (by omega)]
    simp only [Nat.reduceEqDiff, if_false]
    rw [if_neg (by omega)]
    simp

/-- A property of both branches of a conditional holds of the conditional. -/
theorem ite_prop {P : GoString → Prop} {c : Prop} [Decidable c] {a b : GoString}
    (ha : P a) (hb : P b) : P (if c then a else b) := by
  split <;> assumption

/-- A hexadecimal digit is an ASCII character. -/
theorem strconv.lowerhex_ascii (n : Nat) : (strconv.lowerhex n).val < 0x80 := by
  have hlt : n &&& 0xF < 16 := Nat.and_lt_two_pow n (n := 4) (by decide)
  have hall : ∀ j, j < 16 → ((lit "0123456789abcdef").getD j 0).val < 0x80 := by decide
  exact hall _ hlt

/-- The text that stands for one decoding step in a quoted string is clean. -/
theorem strconv.quoteStep_clean (tbl : Nat → Bool) (t : Nat × Nat × Byte) :
    utf8.Clean (strconv.quoteStep tbl t) := by
  have hx : ∀ a b : Nat, utf8.Clean (lit "\\x" ++ [strconv.lowerhex a, strconv.lowerhex b]) := by
    intro a b
    apply utf8.Clean_ascii
    intro c hc
    have e : lit "\\x" = [(0x5C : Byte), 0x78] := by decide
    rw [e] at hc
    simp only [List.cons_append, List.nil_append, List.mem_cons, List.mem_singleton,
      List.not_mem_nil, or_false] at hc
    rcases hc with rfl | rfl | rfl | rfl
    · decide
    · decide
    · exact strconv.lowerhex_ascii a
    · exact strconv.lowerhex_ascii b
  have hlit : ∀ s : GoString, (s.all (fun b => decide (b.val < 0x80)) = true) → utf8.Clean s := by
    intro s hs
    apply utf8.Clean_ascii
    intro b hb
    have := List.all_eq_true.1 hs b hb
    simpa using this
  have hu : ∀ a b c d : Nat, utf8.Clean (lit "\\u" ++ [strconv.lowerhex a, strconv.lowerhex b,
      strconv.lowerhex c, strconv.lowerhex d]) := by
    intro a b c d
    apply utf8.Clean_ascii
    intro x hx'
    have e : lit "\\u" = [(0x5C : Byte), 0x75] := by decide
    rw [e] at hx'
    simp only [List.cons_append, List.nil_append, List.mem_cons, List.mem_singleton,
      List.not_mem_nil, or_false] at hx'
    rcases hx' with rfl | rfl | rfl | rfl | rfl | rfl
    · decide
    · decide
    all_goals exact strconv.lowerhex_ascii _
  have hU : ∀ a b c d e f g h : Nat, utf8.Clean (lit "\\U" ++ [strconv.lowerhex a,
      strconv.lowerhex b, strconv.lowerhex c, strconv.lowerhex d, strconv.lowerhex e,
      strconv.lowerhex f, strconv.lowerhex g, strconv.lowerhex h]) := by
    intro a b c d e f g h
    apply utf8.Clean_ascii
    intro x hx'
    have e : lit "\\U" = [(0x5C : Byte), 0x55] := by decide
    rw [e] at hx'
    simp only [List.cons_append, List.nil_append, List.mem_cons, List.mem_singleton,
      List.not_mem_nil, or_false] at hx'
    rcases hx' with rfl | rfl | rfl | rfl | rfl | rfl | rfl | rfl | rfl | rfl
    · decide
    · decide
    all_goals exact strconv.lowerhex_ascii _
  have hq : ∀ r : Nat, r = 0x22 ∨ r = 0x5C → utf8.Clean [byte 0x5C, byte r] := by
    intro r hr
    apply utf8.Clean_ascii
    intro c hc
    simp only [List.mem_cons, List.mem_singleton, List.not_mem_nil, or_false] at hc
    rcases hc with rfl | rfl
    · decide
    · rcases hr with h1 | h1 <;> rw [h1] <;> decide
  unfold strconv.quoteStep strconv.appendEscapedRune
  refine ite_prop (P := utf8.Clean) (hx _ _) ?_
  by_cases h1 : t.1 = 0x22 ∨ t.1 = 0x5C
  · rw [if_pos h1]
    exact hq _ h1
  rw [if_neg h1]
  exact ite_prop (P := utf8.Clean) (utf8.Clean_encodeRune _)
    (ite_prop (hlit _ (by decide)) (ite_prop (hlit _ (by decide))
    (ite_prop (hlit _ (by decide)) (ite_prop (hlit _ (by decide))
    (ite_prop (hlit _ (by decide)) (ite_prop (hlit _ (by decide))
    (ite_prop (hlit _ (by decide)) (ite_prop (hx _ _)
    (ite_prop (hlit _ (by decide)) (ite_prop (hu _ _ _ _) (hU _ _ _ _ _ _ _ _)))))))))))

/-- A quoted string is valid UTF-8, whatever bytes were quoted. -/
theorem strconv.Quote_valid (tbl : Nat → Bool) (s : GoString) :
    utf8.Valid (strconv.Quote tbl s) = true := by
  apply utf8.Valid_of_Clean
  unfold strconv.Quote
  have hq : utf8.Clean [byte 0x22] := utf8.Clean_ascii_byte _ (by decide)
  exact utf8.Clean_append (utf8.Clean_append hq
    (utf8.Clean_flatMap _ _ (fun t _ => strconv.quoteStep_clean tbl t))) hq

/-- A sanitised string is valid UTF-8. -/
theorem replaceInvalidUTF8_valid (input : GoString) :
    utf8.Valid (replaceInvalidUTF8 input) = true := by
  unfold replaceInvalidUTF8
  by_cases h : utf8.Valid input = true
  · rw [if_pos h]
    exact h
  · rw [if_neg h]
    exact utf8.Valid_of_Clean
      (utf8.Clean_flatMap _ _ (fun t _ => utf8.Clean_encodeRune t.1))

/-- The length of a concatenation of pieces of bounded length. -/
theorem length_flatMap_le {α : Type} (f : α → GoString) (k : Nat) (l : List α)
    (h : ∀ x, (f x).length ≤ k) : (l.flatMap f).length ≤ k * l.length := by
  induction l with
  | nil => simp
  | cons x rest ih =>
    rw [List.flatMap_cons, List.length_append, List.length_cons]
    have := h x
    calc (f x).length + (rest.flatMap f).length ≤ k + k * rest.length := Nat.add_le_add this ih
      _ = k * (rest.length + 1) := by rw [Nat.mul_succ, Nat.add_comm]

/-- A rune is encoded in at most four bytes. -/
theorem encodeRune_length (r : Nat) : (encodeRune r).length ≤ 4 := by
  unfold encodeRune
  repeat' split
  all_goals simp

/-- A sanitised string is at most four times as long as the string. -/
theorem replaceInvalidUTF8_length (input : GoString) :
    (replaceInvalidUTF8 input).length ≤ 4 * input.length := by
  unfold replaceInvalidUTF8
  split
  · omega
  · calc ((utf8.decodeAll input.length input).flatMap (fun t => encodeRune t.1)).length
        ≤ 4 * (utf8.decodeAll input.length input).length :=
          length_flatMap_le _ 4 _ (fun t => encodeRune_length t.1)
      _ ≤ 4 * input.length := Nat.mul_le_mul_left 4 (utf8.decodeAll_length _ _)

/-- One decoding step is written with at most ten bytes. -/
theorem strconv.quoteStep_length (tbl : Nat → Bool) (t : Nat × Nat × Byte) :
    (strconv.quoteStep tbl t).length ≤ 10 := by
  have hx : ∀ a b : Byte, (lit "\\x" ++ [a, b]).length ≤ 10 := by
    intro a b
    have e : (lit "\\x").length = 2 := by decide
    rw [List.length_append, e]
    simp
  have hu : ∀ a b c d : Byte, (lit "\\u" ++ [a, b, c, d]).length ≤ 10 := by
    intro a b c d
    have e : (lit "\\u").length = 2 := by decide
    rw [List.length_append, e]
    simp
  have hU : ∀ a b c d e f g h : Byte, (lit "\\U" ++ [a, b, c, d, e, f, g, h]).length ≤ 10 := by
    intro a b c d e f g h
    have e : (lit "\\U").length = 2 := by decide
    rw [List.length_append, e]
    simp
  have he : (encodeRune t.1).length ≤ 10 := Nat.le_trans (encodeRune_length t.1) (by decide)
  have hq : ([byte 0x5C, byte t.1] : GoString).length ≤ 10 := by simp
  unfold strconv.quoteStep strconv.appendEscapedRune
  have ip : ∀ {c : Prop} [Decidable c] {a b : GoString},
      a.length ≤ 10 → b.length ≤ 10 → (if c then a else b).length ≤ 10 :=
    fun ha hb => ite_prop (P := fun s => s.length ≤ 10) ha hb
  exact ip (hx _ _) (ip hq (ip he
    (ip (by decide) (ip (by decide) (ip (by decide) (ip (by decide)
    (ip (by decide) (ip (by decide) (ip (by decide) (ip (hx _ _)
    (ip (by decide) (ip (hu _ _ _ _) (hU _ _ _ _ _ _ _ _)))))))))))))

/-- A quoted string has at most `10 * len + 2` bytes. -/
theorem strconv.Quote_length (tbl : Nat → Bool) (s : GoString) :
    (strconv.Quote tbl s).length ≤ 10 * s.length + 2 := by
  unfold strconv.Quote
  have h1 := length_flatMap_le (strconv.quoteStep tbl) 10 (utf8.decodeAll s.length s)
    (strconv.quoteStep_length tbl)
  have h2 := utf8.decodeAll_length s.length s
  simp only [List.length_append, List.length_cons, List.length_nil]
  have h3 : 10 * (utf8.decodeAll s.length s).length ≤ 10 * s.length := Nat.mul_le_mul_left 10 h2
  omega

/-- Claim C13, amended: for a non-empty TXT record list that fails
validation, the record content that enters the `Unauthorized` message of
`validateDNS01` is cut to at most 100 bytes plus the 3-byte ellipsis marker
before it is sanitised and quoted; what appears in the message is the
`%q`-quoted form of the sanitised content, in which invalid byte sequences
have been replaced by a placeholder character: it is valid UTF-8 and at most
4122 bytes long. -/
theorem validateDNS01_record_content (tbl : Nat → Bool) (va : ValidationAuthorityImpl)
    (ident : ACMEIdentifier) (challenge : Challenge) (first : GoString) (rest : List GoString)
    (hT : ident.Typ = identifier.DNS)
    (hL : va.dnsClient.LookupTXT (core.DNSPrefix ++ lit "." ++ ident.Value)
      = (first :: rest, none))
    (hM : base64.RawURLEncodeToString (sha256.Sum challenge.ProvidedKeyAuthorization)
      ∉ first :: rest) :
    ∃ msg ev, validateDNS01 tbl va ident challenge = .ok (⟨none, some ⟨.Unauthorized, msg⟩⟩, ev)
      ∧ strconv.Quote tbl (replaceInvalidUTF8
          (if first.length > 100 then first.take 100 ++ lit "..." else first)) <:+: msg
      ∧ (if first.length > 100 then first.take 100 ++ lit "..." else first).length ≤ 103
      ∧ utf8.Valid (replaceInvalidUTF8
          (if first.length > 100 then first.take 100 ++ lit "..." else first)) = true
      ∧ utf8.Valid (strconv.Quote tbl (replaceInvalidUTF8
          (if first.length > 100 then first.take 100 ++ lit "..." else first))) = true
      ∧ (strconv.Quote tbl (replaceInvalidUTF8
          (if first.length > 100 then first.take 100 ++ lit "..." else first))).length
        ≤ 4122 := by
  have hq : ∀ (A Q S F D : GoString), Q <:+: A ++ Q ++ S ++ F ++ D :=
    fun A Q S F D => ⟨A, S ++ F ++ D, by simp only [List.append_assoc]⟩
  have hlen : (if first.length > 100 then first.take 100 ++ lit "..." else first).length
      ≤ 103 := by
    have e : (lit "...").length = 3 := by decide
    split
    · rw [List.length_append, List.length_take, e]
      omega
    · omega
  refine ⟨_, _, validateDNS01_noMatch tbl va ident challenge first rest hT hL hM, hq _ _ _ _ _,
    hlen, replaceInvalidUTF8_valid _, strconv.Quote_valid tbl _, ?_⟩
  have h1 := strconv.Quote_length tbl (replaceInvalidUTF8
    (if first.length > 100 then first.take 100 ++ lit "..." else first))
  have h2 := replaceInvalidUTF8_length
    (if first.length > 100 then first.take 100 ++ lit "..." else first)
  omega

set_option maxRecDepth 1000000 in
set_option maxHeartbeats 4000000 in
/-- Claim C13 at the mock's `long-dns01.com`, whose record is longer than 100
bytes. -/
theorem validateDNS01_record_content_witness :
    (identifier.DNS = identifier.DNS
      ∧ mockVA.dnsClient.LookupTXT (core.DNSPrefix ++ lit "." ++ lit "long-dns01.com")
        = ([lit "aaaaaaaaaaaaaaaaaaaaaaaaaaaaaaaaaaaaaaaaaaaaaaaaaaaaaaaaaaaaaaaaaaaaaaaaaaaaaaaaaaaaaaaaaaaaaaaaaaaaaaaaaaaaaaaaaaaaaaaaaaaaaaaaaaaaaaaaaaaaaaaaaaaaaaaaaaaaaaaaaaaaaaaaaaaaaaaaaaaaaaaaaaaaaaaaaaaaaaaaa"], none)
      ∧ base64.RawURLEncodeToString (sha256.Sum (lit "k"))
        ∉ [lit "aaaaaaaaaaaaaaaaaaaaaaaaaaaaaaaaaaaaaaaaaaaaaaaaaaaaaaaaaaaaaaaaaaaaaaaaaaaaaaaaaaaaaaaaaaaaaaaaaaaaaaaaaaaaaaaaaaaaaaaaaaaaaaaaaaaaaaaaaaaaaaaaaaaaaaaaaaaaaaaaaaaaaaaaaaaaaaaaaaaaaaaaaaaaaaaaaaaaaaaaa"])
    ∧ ∃ msg ev, validateDNS01 (fun _ => false) mockVA ⟨identifier.DNS, lit "long-dns01.com"⟩
          ⟨lit "k"⟩ = .ok (⟨none, some ⟨.Unauthorized, msg⟩⟩, ev)
        ∧ lit
          "\"aaaaaaaaaaaaaaaaaaaaaaaaaaaaaaaaaaaaaaaaaaaaaaaaaaaaaaaaaaaaaaaaaaaaaaaaaaaaaaaaaaaaaaaaaaaaaaaaaaaa...\""
          <:+: msg := by
  have hM : base64.RawURLEncodeToString (sha256.Sum (lit "k"))
      ∉ [lit "aaaaaaaaaaaaaaaaaaaaaaaaaaaaaaaaaaaaaaaaaaaaaaaaaaaaaaaaaaaaaaaaaaaaaaaaaaaaaaaaaaaaaaaaaaaaaaaaaaaaaaaaaaaaaaaaaaaaaaaaaaaaaaaaaaaaaaaaaaaaaaaaaaaaaaaaaaaaaaaaaaaaaaaaaaaaaaaaaaaaaaaaaaaaaaaaaaaaaaaaa"] :=
    digest_not_mem _ _ (by decide)
  obtain ⟨msg, ev, h, hq, _⟩ :=
    validateDNS01_record_content (fun _ => false) mockVA
      ⟨identifier.DNS, lit "long-dns01.com"⟩ ⟨lit "k"⟩ _ [] rfl (by decide) hM
  refine ⟨⟨rfl, by decide, hM⟩, msg, ev, h, ?_⟩
  have e : strconv.Quote (fun _ => false) (replaceInvalidUTF8
      (if (lit "aaaaaaaaaaaaaaaaaaaaaaaaaaaaaaaaaaaaaaaaaaaaaaaaaaaaaaaaaaaaaaaaaaaaaaaaaaaaaaaaaaaaaaaaaaaaaaaaaaaaaaaaaaaaaaaaaaaaaaaaaaaaaaaaaaaaaaaaaaaaaaaaaaaaaaaaaaaaaaaaaaaaaaaaaaaaaaaaaaaaaaaaaaaaaaaaaaaaaaaaa").length > 100
        then (lit "aaaaaaaaaaaaaaaaaaaaaaaaaaaaaaaaaaaaaaaaaaaaaaaaaaaaaaaaaaaaaaaaaaaaaaaaaaaaaaaaaaaaaaaaaaaaaaaaaaaaaaaaaaaaaaaaaaaaaaaaaaaaaaaaaaaaaaaaaaaaaaaaaaaaaaaaaaaaaaaaaaaaaaaaaaaaaaaaaaaaaaaaaaaaaaaaaaaaaaaaa").take 100
          ++ lit "..."
        else lit "aaaaaaaaaaaaaaaaaaaaaaaaaaaaaaaaaaaaaaaaaaaaaaaaaaaaaaaaaaaaaaaaaaaaaaaaaaaaaaaaaaaaaaaaaaaaaaaaaaaaaaaaaaaaaaaaaaaaaaaaaaaaaaaaaaaaaaaaaaaaaaaaaaaaaaaaaaaaaaaaaaaaaaaaaaaaaaaaaaaaaaaaaaaaaaaaaaaaaaaaa"))
      = lit "\"aaaaaaaaaaaaaaaaaaaaaaaaaaaaaaaaaaaaaaaaaaaaaaaaaaaaaaaaaaaaaaaaaaaaaaaaaaaaaaaaaaaaaaaaaaaaaaaaaaaa...\"" := by
    decide
  rw [← e]
  exact hq

set_option maxRecDepth 1000000 in
set_option maxHeartbeats 4000000 in
/-- Claim C13 as stated fails: for a record of 100 NUL bytes, which is valid
UTF-8 and needs no truncation, the content that appears in the message is the
quoted text `"\x00\x00...\x00"` of 402 bytes, more than 100 bytes plus the
marker. -/
theorem validateDNS01_record_content_counterexample :
    (identifier.DNS = identifier.DNS
      ∧ (constTXT [List.replicate 100 (0 : Byte)]).dnsClient.LookupTXT
          (core.DNSPrefix ++ lit "." ++ lit "x") = ([List.replicate 100 (0 : Byte)], none)
      ∧ base64.RawURLEncodeToString (sha256.Sum (lit "k")) ∉ [List.replicate 100 (0 : Byte)]
      ∧ (List.replicate 100 (0 : Byte)).length = 100
      ∧ utf8.Valid (List.replicate 100 (0 : Byte)) = true)
    ∧ validateDNS01 (fun _ => false) (constTXT [List.replicate 100 (0 : Byte)])
        ⟨identifier.DNS, lit "x"⟩ ⟨lit "k"⟩
      = .ok (⟨none, some ⟨.Unauthorized,
            lit "Incorrect TXT record "
              ++ ([byte 0x22] ++ (List.replicate 100 (lit "\\x00")).flatMap id ++ [byte 0x22])
              ++ lit " found at _acme-challenge.x"⟩⟩,
          [.LookupTXT (lit "_acme-challenge.x")])
    ∧ ([byte 0x22] ++ (List.replicate 100 (lit "\\x00")).flatMap id ++ [byte 0x22]).length = 402
    ∧ 100 + 3 < ([byte 0x22] ++ (List.replicate 100 (lit "\\x00")).flatMap id
        ++ [byte 0x22]).length := by
  have hM : base64.RawURLEncodeToString (sha256.Sum (lit "k"))
      ∉ [List.replicate 100 (0 : Byte)] := digest_not_mem _ _ (by decide)
  refine ⟨⟨rfl, rfl, hM, by decide, by decide⟩, ?_, by decide, by decide⟩
  rw [validateDNS01_noMatch (fun _ => false) (constTXT [List.replicate 100 (0 : Byte)])
    ⟨identifier.DNS, lit "x"⟩ ⟨lit "k"⟩ (List.replicate 100 (0 : Byte)) [] rfl rfl hM]
  have e1 : (core.DNSPrefix ++ lit "." ++ lit "x") = lit "_acme-challenge.x" := by decide
  have e2 : probs.Unauthorized (lit "Incorrect TXT record "
      ++ strconv.Quote (fun _ => false) (replaceInvalidUTF8
          (if (List.replicate 100 (0 : Byte)).length > 100 then
            (List.replicate 100 (0 : Byte)).take 100 ++ lit "..."
           else List.replicate 100 (0 : Byte)))
      ++ (if ([] : List GoString).length ≥ 1 then
            lit " (and " ++ strconv.Itoa ([] : List GoString).length ++ lit " more)"
          else [])
      ++ lit " found at " ++ lit "_acme-challenge.x")
      = ⟨.Unauthorized, lit "Incorrect TXT record "
              ++ ([byte 0x22] ++ (List.replicate 100 (lit "\\x00")).flatMap id ++ [byte 0x22])
              ++ lit " found at _acme-challenge.x"⟩ := by
    decide
  simp only [e1]
  rw [e2]

end Boulder
